import Mathlib

/-!
# Verification of the GS1 barcode parser (gs1-toolkit)

A shallow embedding in Lean 4 of the TypeScript GS1 element-string decoder
(`src/barcodeParser.ts`, `src/parsers.ts`, `src/utils.ts`, `src/gs1Barcode.ts`)
together with theorems settling the frozen claims about it.

Modelling conventions:
* JS strings are `List Char` (`Str`); `String.prototype.slice` is `jsSlice`
  with JS clamping of negative indices, `indexOf` of a one-character needle is
  `jsIndexOfChar`, `replace` with an empty replacement is `jsReplaceFirst`.
* JS numbers that can be `NaN` are `Option Int` / `Option JSDec` with `none`
  for `NaN`.  `Number.parseInt` and `Number.parseFloat` (which never throw, so
  the `InternalError` wrappers in the source are dead code) are `jsParseInt`
  and `jsParseFloat`; `jsParseFloat` models the decimal/exponent grammar of
  `parseFloat` exactly and keeps the exact decimal value it reads (the source
  inserts the decimal point lexically precisely so that no binary rounding is
  observable); the `Infinity` literal, unreachable from the decimal-inserted
  payloads the claims range over, is not modelled.
* A JS `Date` constructed from (year, 0-based month, day) is modelled by its
  normalized civil triple `(getFullYear, getMonth, getDate)` via
  `jsDateNormalize`, the proleptic-Gregorian day-overflow normalization
  mandated by ECMA-262 `MakeDay`.  Times of day are zeroed by the source
  (`setHours(0,0,0,0)`) and never observed.
* The terminator (`fncChar`) is a single character, per the spec's
  configuration surface.
-/

set_option maxHeartbeats 1000000

abbrev Str := List Char

/-- ASCII 29, `String.fromCodePoint(29)` in `utils.ts`. -/
def GROUP_SEPARATOR : Char := Char.ofNat 29

/-- `NUMERIC_REGEX = /^\d+$/` from `utils.ts`: nonempty and all digits. -/
def numericTest (s : Str) : Bool := !s.isEmpty && s.all Char.isDigit

/-- Resolve a JS `slice` index against a string length (negative counts from
the end, clamped into `[0, n]`). -/
def jsIndex (n : Nat) (i : Int) : Nat :=
  if i < 0 then ((n : Int) + i).toNat else min i.toNat n

/-- `s.slice(a, b)` of JS strings. -/
def jsSlice (s : Str) (a b : Int) : Str :=
  (s.take (jsIndex s.length b)).drop (jsIndex s.length a)

/-- `s.slice(a)` of JS strings. -/
def jsSliceFrom (s : Str) (a : Int) : Str :=
  s.drop (jsIndex s.length a)

/-- Index of the first occurrence of the pattern `pat` in `s`
(`s.indexOf(pat)`, with `none` for `-1`). -/
def jsIndexOfStr (s pat : Str) : Option Nat :=
  (List.range (s.length + 1)).find? (fun i => decide (pat = (s.drop i).take pat.length))

/-- `s.replace(pat, "")`: remove the first occurrence of `pat`, if any. -/
def jsReplaceFirst (s pat : Str) : Str :=
  match jsIndexOfStr s pat with
  | some i => s.take i ++ s.drop (i + pat.length)
  | none => s

/-- `s.indexOf(c)` for a single character (`none` for `-1`). -/
def jsIndexOfChar (s : Str) (c : Char) : Option Nat :=
  match s with
  | [] => none
  | a :: t => if a = c then some 0 else (jsIndexOfChar t c).map (· + 1)

def jsWhitespace (c : Char) : Bool := c = ' ' || c = '\t' || c = '\n' || c = '\r'

/-- Value of a digit string (used for the all-digit fast path of the parsers). -/
def digitsVal (s : Str) : Nat := s.foldl (fun a c => 10 * a + (c.toNat - '0'.toNat)) 0

/-- Longest leading run of decimal digits. -/
def takeDigits (s : Str) : Str := s.takeWhile Char.isDigit

/-- `Number.parseInt(s, 10)`: skip whitespace, optional sign, then the longest
digit prefix; `none` (JS `NaN`) if no digit follows. -/
def jsParseInt (s : Str) : Option Int :=
  let s1 := s.dropWhile jsWhitespace
  let (sgn, s2) : Int × Str :=
    match s1 with
    | [] => (1, [])
    | c :: r => if c = '-' then (-1, r) else if c = '+' then (1, r) else (1, c :: r)
  let ds := takeDigits s2
  if ds.isEmpty then none else some (sgn * (digitsVal ds : Int))

/-- The exact decimal value `num * 10 ^ exp` read by `Number.parseFloat`.
We keep this unreduced pair (rather than a normalized `ℚ`, whose arithmetic
is not kernel-computable) as the value of a parsed JS number; two numbers
produced from the same character string always have the same pair.  The
rounding of the exact decimal to a binary double is not modelled — the source
inserts the decimal point lexically precisely so that the decimal digits, not
binary artifacts, determine the value. -/
structure JSDec where
  num : Int
  exp : Int
  deriving DecidableEq, Repr

/-- The rational value denoted by a parsed decimal. -/
def JSDec.toRat (x : JSDec) : ℚ := (x.num : ℚ) * (10 : ℚ) ^ x.exp

/-- Mantissa/exponent form accepted by `Number.parseFloat`:
`digits [. digits] | . digits`, optionally followed by `(e|E) [sign] digits`.
Returns `none` (JS `NaN`) when no numeric prefix exists. -/
def jsParseFloat (s : Str) : Option JSDec :=
  let s1 := s.dropWhile jsWhitespace
  let (sgn, s2) : Int × Str :=
    match s1 with
    | [] => (1, [])
    | c :: r => if c = '-' then (-1, r) else if c = '+' then (1, r) else (1, c :: r)
  let intDs := takeDigits s2
  let s3 := s2.drop intDs.length
  let (fracDs, s4) : Str × Str :=
    match s3 with
    | '.' :: r => (takeDigits r, r.drop (takeDigits r).length)
    | r => ([], r)
  if intDs.isEmpty && fracDs.isEmpty then none
  else
    let mant : Int := (digitsVal intDs : Int) * (10 : Int) ^ fracDs.length + (digitsVal fracDs : Int)
    let expVal : Int :=
      match s4 with
      | 'e' :: r | 'E' :: r =>
        (match r with
         | '-' :: r2 => if (takeDigits r2).isEmpty then 0 else -(digitsVal (takeDigits r2) : Int)
         | '+' :: r2 => if (takeDigits r2).isEmpty then 0 else (digitsVal (takeDigits r2) : Int)
         | r2 => if (takeDigits r2).isEmpty then 0 else (digitsVal (takeDigits r2) : Int))
      | _ => 0
    some ⟨sgn * mant, expVal - (fracDs.length : Int)⟩

/-! ## Civil calendar (ECMA-262 `MakeDay` normalization) -/

def isLeapYear (y : Int) : Bool := (y % 4 = 0 && y % 100 ≠ 0) || y % 400 = 0

/-- Length of 0-based month `m` (`0..11`) of year `y`. -/
def daysInMonth (y : Int) (m : Int) : Int :=
  if m = 0 then 31 else if m = 1 then (if isLeapYear y then 29 else 28)
  else if m = 2 then 31 else if m = 3 then 30 else if m = 4 then 31
  else if m = 5 then 30 else if m = 6 then 31 else if m = 7 then 31
  else if m = 8 then 30 else if m = 9 then 31 else if m = 10 then 30 else 31

/-- One fuel-bounded walk step normalizing an out-of-range day against 0-based
month `m ∈ [0, 11]`: borrow from the previous month while `d < 1`, carry into
the next month while `d > daysInMonth`. -/
def normDays : Nat → Int → Int → Int → Int × Int × Int
  | 0, y, m, d => (y, m, d)
  | fuel + 1, y, m, d =>
    if d < 1 then
      if m = 0 then normDays fuel (y - 1) 11 (d + daysInMonth (y - 1) 11)
      else normDays fuel y (m - 1) (d + daysInMonth y (m - 1))
    else if d > daysInMonth y m then
      if m = 11 then normDays fuel (y + 1) 0 (d - daysInMonth y m)
      else normDays fuel y (m + 1) (d - daysInMonth y m)
    else (y, m, d)

/-- `(new Date(y, m, d))` with zeroed time, as its civil triple
`(getFullYear, getMonth, getDate)`; equally the effect of
`setFullYear(y, m, d)` on a zeroed date.  Months are first reduced mod 12 with
the year absorbing the quotient, then the day walk resolves day overflow; the
fuel `d.natAbs + 13` always suffices because every walk step moves `d` towards
`[1, 28]` by at least 28. -/
def jsDateNormalize (y m d : Int) : Int × Int × Int :=
  normDays (d.natAbs + 13) (y + m.fdiv 12) (m.emod 12) d

/-! ## Data model (`types.ts`, `utils.ts`) -/

/-- The three element payload types (`"S" | "N" | "D"`); a JS number may be
`NaN` (`none`), a date is its civil triple. -/
inductive EData where
  | s (v : Str)
  | n (v : Option JSDec)
  | d (v : Int × Int × Int)
  deriving DecidableEq, Repr

structure ParsedElement where
  ai : Str
  dataTitle : Str
  data : EData
  dataString : Str
  unit : Str
  deriving DecidableEq, Repr

structure ParseResult where
  element : ParsedElement
  codestring : Str
  deriving DecidableEq, Repr

structure BarcodeAnswer where
  codeName : Str
  denormalized : Str
  parsedCodeItems : List ParsedElement
  deriving DecidableEq, Repr

inductive BarcodeErrorCodes where
  | BarcodeNotANum | EmptyBarcode | BarcodeNotGS1 | InvalidBarcode
  | InvalidNumAI | InvalidNormalAI | InvalidDate | InvalidNum
  | FixedLengthDataTooShort | EmptyVariableLengthData | NumericDataExpected
  | UnknownErr
  deriving DecidableEq, Repr

/-- The thrown values observable from `decode`: `BarcodeError(num, code, des)`
(we keep the error kind and the short string code; the human-readable
description is elided) and `InvalidAiError(prev, current)`.  `InternalError`
is omitted: it is only thrown in `catch` blocks around `Number.parseInt` /
`Number.parseFloat`, which never throw in JS, so every `InternalError` path
(and hence `handleInternalError`) is dead code. -/
inductive BError where
  | barcodeError (num : BarcodeErrorCodes) (code : Str)
  | invalidAi (prev current : Str)
  deriving DecidableEq, Repr

/-- `cleanCodestring` from `utils.ts`: strip every leading `fncChar`. -/
def cleanCodestring (s : Str) (fnc : Char) : Str :=
  match s with
  | c :: rest => if c = fnc then cleanCodestring rest fnc else s
  | [] => []

/-- `checkValidDate` from `utils.ts`.  `year`/`month`/`day` are JS numbers
(`none` = `NaN`, which fails every strict-equality comparison, so the final
validity conjunction is false whenever any component is `NaN`, while a `NaN`
month passes the range guard since both `NaN < 0` and `NaN > 11` are false). -/
def checkValidDate (year month day : Option Int) : Bool :=
  (match month with
   | some m => !(m < 0 || m > 11)
   | none => true) &&
  (match year, month, day with
   | some y, some mo, some d =>
     let m := if d = 0 then mo + 1 else mo
     let t := jsDateNormalize y m d
     t.1 = y && t.2.1 = mo && (t.2.2 = d || d = 0)
   | _, _, _ => false)

/-! ## Field decoders (`parsers.ts`) -/

/-- `parseFloatingPoint`: insert a decimal point `numberOfFractionals` places
from the right (lexically) and `parseFloat` the result.  A `NaN`
`numberOfFractionals` makes both `slice` bounds `0`, giving `"." + s`. -/
def parseFloatingPoint (s : Str) (numberOfFractionals : Option Int) : Option JSDec :=
  let auxString :=
    match numberOfFractionals with
    | some k => jsSlice s 0 ((s.length : Int) - k) ++ '.' :: jsSliceFrom s ((s.length : Int) - k)
    | none => '.' :: s
  jsParseFloat auxString

/-- `parseDate` from `parsers.ts`.  The `try`/`catch` wrappers around
`Number.parseInt` are dead code (`parseInt` never throws); a failed parse
yields `NaN` instead, which `checkValidDate` rejects. -/
def parseDate (ai title : Str) (codestring : Str) : Except BError ParseResult :=
  let offSet : Int := ai.length
  let dateYYMMDD := jsSlice codestring offSet (offSet + 6)
  let yearRaw := jsParseInt (jsSlice dateYYMMDD 0 2)
  let monthAsNumber := (jsParseInt (jsSlice dateYYMMDD 2 4)).map (· - 1)
  let dayAsNumber := jsParseInt (jsSlice dateYYMMDD 4 6)
  let yearAsNumber := yearRaw.map (fun y => if y > 50 then y + 1900 else y + 2000)
  if checkValidDate yearAsNumber monthAsNumber dayAsNumber then
    match yearAsNumber, monthAsNumber, dayAsNumber with
    | some y, some mo, some d =>
      let mo2 := if d = 0 then mo + 1 else mo
      .ok ⟨⟨ai, title, .d (jsDateNormalize y mo2 d), dateYYMMDD, []⟩,
           jsSliceFrom codestring (offSet + 6)⟩
    | _, _, _ =>
      -- unreachable: `checkValidDate` is false when any component is `NaN`
      .error (.barcodeError .InvalidDate ['3', '6'])
  else
    .error (.barcodeError .InvalidDate ['3', '6'])

/-- `parseFixedLength` from `parsers.ts`. -/
def parseFixedLength (ai title : Str) (length : Nat) (codestring : Str)
    (numeric : Bool := false) : Except BError ParseResult :=
  let offSet : Int := ai.length
  let data := jsSlice codestring offSet ((length : Int) + offSet)
  if data.length < length then
    .error (.barcodeError .FixedLengthDataTooShort ['3', '7'])
  else if numeric && !numericTest data then
    .error (.barcodeError .NumericDataExpected ['3', '9'])
  else
    .ok ⟨⟨ai, title, .s data, data, []⟩, jsSliceFrom codestring ((length : Int) + offSet)⟩

/-- `parseVariableLength` from `parsers.ts`.  `maxLength` is the optional
(JS-falsy-when-0) cap; with no terminator in sight and a positive cap the
source removes the first occurrence of `ai + data` from the codestring. -/
def parseVariableLength (ai title : Str) (codestring : Str) (fncChar : Char)
    (maxLength : Option Nat := none) (numeric : Bool := false) : Except BError ParseResult :=
  let offSet : Int := ai.length
  let posOfFNC := jsIndexOfChar codestring fncChar
  let (data, codestringToReturn) : Str × Str :=
    match posOfFNC with
    | none =>
      match maxLength with
      | some ml =>
        if ml > 0 then
          let d := jsSlice codestring offSet ((ml : Int) + offSet)
          (d, jsReplaceFirst codestring (ai ++ d))
        else (jsSliceFrom codestring offSet, [])
      | none => (jsSliceFrom codestring offSet, [])
    | some pos => (jsSlice codestring offSet (pos : Int), jsSliceFrom codestring ((pos : Int) + 1))
  if data = [] then
    .error (.barcodeError .EmptyVariableLengthData ['3', '8'])
  else if numeric && !numericTest data then
    .error (.barcodeError .NumericDataExpected ['3', '9'])
  else
    .ok ⟨⟨ai, title, .s data, data, []⟩, codestringToReturn⟩

/-- `parseVariableLengthMeasure` from `parsers.ts` (AIs 390x/392x): no numeric
validation at all; the value is `parseFloatingPoint` of the payload. -/
def parseVariableLengthMeasure (ai_stem fourthNumber title unit : Str)
    (codestring : Str) (fncChar : Char) : Except BError ParseResult :=
  let offSet : Int := (ai_stem.length : Int) + 1
  let posOfFNC := jsIndexOfChar codestring fncChar
  let numberOfDecimals := jsParseInt fourthNumber
  let (numberPart, codestringToReturn) : Str × Str :=
    match posOfFNC with
    | none => (jsSliceFrom codestring offSet, [])
    | some pos => (jsSlice codestring offSet (pos : Int), jsSliceFrom codestring ((pos : Int) + 1))
  .ok ⟨⟨ai_stem ++ fourthNumber, title, .n (parseFloatingPoint numberPart numberOfDecimals),
        numberPart, unit⟩, codestringToReturn⟩

/-- `parseFixedLengthMeasure` from `parsers.ts` (AIs 31xx–36xx): the fourth
digit must be numeric (`InvalidAiError` otherwise), the 6-character payload
must be all digits. -/
def parseFixedLengthMeasure (ai_stem fourthNumber title unit : Str)
    (codestring : Str) : Except BError ParseResult :=
  let offSet : Int := (ai_stem.length : Int) + 1
  if !numericTest fourthNumber then
    .error (.invalidAi ai_stem fourthNumber)
  else
    let numberOfDecimals := jsParseInt fourthNumber
    let numberPart := jsSlice codestring offSet (offSet + 6)
    if !numericTest numberPart then
      .error (.barcodeError .NumericDataExpected ['3', '9'])
    else
      .ok ⟨⟨ai_stem ++ fourthNumber, title, .n (parseFloatingPoint numberPart numberOfDecimals),
            numberPart, unit⟩, jsSliceFrom codestring (offSet + 6)⟩

/-- `parseVariableLengthWithISONumbers` from `parsers.ts` (AIs 391x/393x):
the first 3 payload characters are the ISO code (the `unit`), the rest is the
decimal-inserted number; note `dataString` is only the number part. -/
def parseVariableLengthWithISONumbers (ai_stem fourthNumber title : Str)
    (codestring : Str) (fncChar : Char) : Except BError ParseResult :=
  let offSet : Int := (ai_stem.length : Int) + 1
  let posOfFNC := jsIndexOfChar codestring fncChar
  let numberOfDecimals := jsParseInt fourthNumber
  let (isoPlusNumbers, codestringToReturn) : Str × Str :=
    match posOfFNC with
    | none => (jsSliceFrom codestring offSet, [])
    | some pos => (jsSlice codestring offSet (pos : Int), jsSliceFrom codestring ((pos : Int) + 1))
  let numberPart := jsSliceFrom isoPlusNumbers 3
  .ok ⟨⟨ai_stem ++ fourthNumber, title, .n (parseFloatingPoint numberPart numberOfDecimals),
        numberPart, jsSlice isoPlusNumbers 0 3⟩, codestringToReturn⟩

/-- `parseVariableLengthWithISOChars` from `parsers.ts` (AIs 421, 703x):
first 3 payload characters are the ISO code, the rest is a string value;
`dataString` is the whole payload. -/
def parseVariableLengthWithISOChars (ai_stem title : Str)
    (codestring : Str) (fncChar : Char) : Except BError ParseResult :=
  let offSet : Int := ai_stem.length
  let posOfFNC := jsIndexOfChar codestring fncChar
  let (isoPlusNumbers, codestringToReturn) : Str × Str :=
    match posOfFNC with
    | none => (jsSliceFrom codestring offSet, [])
    | some pos => (jsSlice codestring offSet (pos : Int), jsSliceFrom codestring ((pos : Int) + 1))
  .ok ⟨⟨ai_stem, title, .s (jsSliceFrom isoPlusNumbers 3), isoPlusNumbers,
        jsSlice isoPlusNumbers 0 3⟩, codestringToReturn⟩

/-! ## AI dispatch (`identifyAI` in `barcodeParser.ts`)

The source switches on the 1-character slices `slice(0,1)`, `slice(1,2)`,
`slice(2,3)`, `slice(3,4)` of the codestring; a missing character yields the
empty string, which falls to the same `default` branch as an unknown digit.
We mirror this with nested list matches (`[]` and an unknown character both
reach the default).  `fncChar` is optional exactly as in the source
(`if (!fncChar) fncChar = GROUP_SEPARATOR`). -/

def str (s : String) : Str := s.data

set_option linter.unusedVariables false in
/-- Continuation of `identifyAI` at the digit prefix `0`: the `switch` arm of
`barcodeParser.ts` reached after consuming `"0"`; `rest` is the remainder of
the codestring after that prefix, and each decoder receives the full
codestring reconstructed from the digits already matched. -/
def identifyAI0 (rest : Str) (lotLen : Option Nat) (fncChar0 : Option Char) :
    Except BError ParseResult :=
  match rest with
  | [] => .error (.invalidAi (str "0") [])
  | c :: rest' =>
    if c = '0' then
      parseFixedLength (str "00") (str "SSCC") 18 ('0' :: '0' :: rest') true
    else if c = '1' then
      parseFixedLength (str "01") (str "GTIN") 14 ('0' :: '1' :: rest') true
    else if c = '2' then
      parseFixedLength (str "02") (str "CONTENT") 14 ('0' :: '2' :: rest')
    else if c = '3' then
      parseFixedLength (str "03") (str "MTO GTIN") 14 ('0' :: '3' :: rest')
    else .error (.invalidAi (str "0") [c])

set_option linter.unusedVariables false in
/-- Continuation of `identifyAI` at the digit prefix `1`: the `switch` arm of
`barcodeParser.ts` reached after consuming `"1"`; `rest` is the remainder of
the codestring after that prefix, and each decoder receives the full
codestring reconstructed from the digits already matched. -/
def identifyAI1 (rest : Str) (lotLen : Option Nat) (fncChar0 : Option Char) :
    Except BError ParseResult :=
  match rest with
  | [] => .error (.invalidAi (str "1") [])
  | c :: rest' =>
    if c = '0' then
      parseVariableLength (str "10") (str "BATCH/LOT") ('1' :: '0' :: rest') (fncChar0.getD GROUP_SEPARATOR) (some (lotLen.getD 20))
    else if c = '1' then
      parseDate (str "11") (str "PROD DATE") ('1' :: '1' :: rest')
    else if c = '2' then
      parseDate (str "12") (str "DUE DATE") ('1' :: '2' :: rest')
    else if c = '3' then
      parseDate (str "13") (str "PACK DATE") ('1' :: '3' :: rest')
    else if c = '5' then
      parseDate (str "15") (str "BEST BEFORE or BEST BY") ('1' :: '5' :: rest')
    else if c = '6' then
      parseDate (str "16") (str "SELL BY") ('1' :: '6' :: rest')
    else if c = '7' then
      parseDate (str "17") (str "USE BY OR EXPIRY") ('1' :: '7' :: rest')
    else .error (.invalidAi (str "1") [c])

set_option linter.unusedVariables false in
/-- Continuation of `identifyAI` at the digit prefix `23`: the `switch` arm of
`barcodeParser.ts` reached after consuming `"23"`; `rest` is the remainder of
the codestring after that prefix, and each decoder receives the full
codestring reconstructed from the digits already matched. -/
def identifyAI23 (rest : Str) (lotLen : Option Nat) (fncChar0 : Option Char) :
    Except BError ParseResult :=
  match rest with
  | [] => .error (.invalidAi (str "23") [])
  | c :: rest' =>
    if c = '5' then
      parseVariableLength (str "235") (str "TPX") ('2' :: '3' :: '5' :: rest') (fncChar0.getD GROUP_SEPARATOR) (some 28)
    else .error (.invalidAi (str "23") [c])

set_option linter.unusedVariables false in
/-- Continuation of `identifyAI` at the digit prefix `24`: the `switch` arm of
`barcodeParser.ts` reached after consuming `"24"`; `rest` is the remainder of
the codestring after that prefix, and each decoder receives the full
codestring reconstructed from the digits already matched. -/
def identifyAI24 (rest : Str) (lotLen : Option Nat) (fncChar0 : Option Char) :
    Except BError ParseResult :=
  match rest with
  | [] => .error (.invalidAi (str "24") [])
  | c :: rest' =>
    if c = '0' then
      parseVariableLength (str "240") (str "ADDITIONAL ID") ('2' :: '4' :: '0' :: rest') (fncChar0.getD GROUP_SEPARATOR) (some 30)
    else if c = '1' then
      parseVariableLength (str "241") (str "CUST. PART NO.") ('2' :: '4' :: '1' :: rest') (fncChar0.getD GROUP_SEPARATOR) (some 30)
    else if c = '2' then
      parseVariableLength (str "242") (str "MTO VARIANT") ('2' :: '4' :: '2' :: rest') (fncChar0.getD GROUP_SEPARATOR) (some 6)
    else if c = '3' then
      parseVariableLength (str "243") (str "PCN") ('2' :: '4' :: '3' :: rest') (fncChar0.getD GROUP_SEPARATOR) (some 20)
    else .error (.invalidAi (str "24") [c])

set_option linter.unusedVariables false in
/-- Continuation of `identifyAI` at the digit prefix `25`: the `switch` arm of
`barcodeParser.ts` reached after consuming `"25"`; `rest` is the remainder of
the codestring after that prefix, and each decoder receives the full
codestring reconstructed from the digits already matched. -/
def identifyAI25 (rest : Str) (lotLen : Option Nat) (fncChar0 : Option Char) :
    Except BError ParseResult :=
  match rest with
  | [] => .error (.invalidAi (str "25") [])
  | c :: rest' =>
    if c = '0' then
      parseVariableLength (str "250") (str "SECONDARY SERIAL") ('2' :: '5' :: '0' :: rest') (fncChar0.getD GROUP_SEPARATOR) (some 30)
    else if c = '1' then
      parseVariableLength (str "251") (str "REF. TO SOURCE") ('2' :: '5' :: '1' :: rest') (fncChar0.getD GROUP_SEPARATOR) (some 30)
    else if c = '3' then
      parseVariableLength (str "253") (str "GDTI") ('2' :: '5' :: '3' :: rest') (fncChar0.getD GROUP_SEPARATOR) (some 42)
    else if c = '4' then
      parseVariableLength (str "254") (str "GLN EXTENSION COMPONENT") ('2' :: '5' :: '4' :: rest') (fncChar0.getD GROUP_SEPARATOR) (some 20)
    else if c = '5' then
      parseVariableLength (str "255") (str "GCN") ('2' :: '5' :: '5' :: rest') (fncChar0.getD GROUP_SEPARATOR) (some 37)
    else .error (.invalidAi (str "25") [c])

set_option linter.unusedVariables false in
/-- Continuation of `identifyAI` at the digit prefix `2`: the `switch` arm of
`barcodeParser.ts` reached after consuming `"2"`; `rest` is the remainder of
the codestring after that prefix, and each decoder receives the full
codestring reconstructed from the digits already matched. -/
def identifyAI2 (rest : Str) (lotLen : Option Nat) (fncChar0 : Option Char) :
    Except BError ParseResult :=
  match rest with
  | [] => .error (.invalidAi (str "2") [])
  | c :: rest' =>
    if c = '0' then
      parseFixedLength (str "20") (str "VARIANT") 2 ('2' :: '0' :: rest')
    else if c = '1' then
      parseVariableLength (str "21") (str "SERIAL") ('2' :: '1' :: rest') (fncChar0.getD GROUP_SEPARATOR) (some (lotLen.getD 20))
    else if c = '2' then
      parseVariableLength (str "22") (str "CPV") ('2' :: '2' :: rest') (fncChar0.getD GROUP_SEPARATOR) (some 20)
    else if c = '3' then
      identifyAI23 rest' lotLen fncChar0
    else if c = '4' then
      identifyAI24 rest' lotLen fncChar0
    else if c = '5' then
      identifyAI25 rest' lotLen fncChar0
    else .error (.invalidAi (str "2") [c])

set_option linter.unusedVariables false in
/-- Continuation of `identifyAI` at the digit prefix `31`: the `switch` arm of
`barcodeParser.ts` reached after consuming `"31"`; `rest` is the remainder of
the codestring after that prefix, and each decoder receives the full
codestring reconstructed from the digits already matched. -/
def identifyAI31 (rest : Str) (lotLen : Option Nat) (fncChar0 : Option Char) :
    Except BError ParseResult :=
  match rest with
  | [] => .error (.invalidAi (str "31") [])
  | c :: rest' =>
    if c = '0' then
      parseFixedLengthMeasure (str "310") (rest'.take 1) (str "NET WEIGHT (kg)") (str "KGM") ('3' :: '1' :: '0' :: rest')
    else if c = '1' then
      parseFixedLengthMeasure (str "311") (rest'.take 1) (str "LENGTH (m)") (str "MTR") ('3' :: '1' :: '1' :: rest')
    else if c = '2' then
      parseFixedLengthMeasure (str "312") (rest'.take 1) (str "WIDTH (m)") (str "MTR") ('3' :: '1' :: '2' :: rest')
    else if c = '3' then
      parseFixedLengthMeasure (str "313") (rest'.take 1) (str "HEIGHT (m)") (str "MTR") ('3' :: '1' :: '3' :: rest')
    else if c = '4' then
      parseFixedLengthMeasure (str "314") (rest'.take 1) (str "AREA (m2)") (str "MTK") ('3' :: '1' :: '4' :: rest')
    else if c = '5' then
      parseFixedLengthMeasure (str "315") (rest'.take 1) (str "NET VOLUME (l)") (str "LTR") ('3' :: '1' :: '5' :: rest')
    else if c = '6' then
      parseFixedLengthMeasure (str "316") (rest'.take 1) (str "NET VOLUME (m3)") (str "MTQ") ('3' :: '1' :: '6' :: rest')
    else .error (.invalidAi (str "31") [c])

set_option linter.unusedVariables false in
/-- Continuation of `identifyAI` at the digit prefix `32`: the `switch` arm of
`barcodeParser.ts` reached after consuming `"32"`; `rest` is the remainder of
the codestring after that prefix, and each decoder receives the full
codestring reconstructed from the digits already matched. -/
def identifyAI32 (rest : Str) (lotLen : Option Nat) (fncChar0 : Option Char) :
    Except BError ParseResult :=
  match rest with
  | [] => .error (.invalidAi (str "32") [])
  | c :: rest' =>
    if c = '0' then
      parseFixedLengthMeasure (str "320") (rest'.take 1) (str "NET WEIGHT (lb)") (str "LBR") ('3' :: '2' :: '0' :: rest')
    else if c = '1' then
      parseFixedLengthMeasure (str "321") (rest'.take 1) (str "LENGTH (i)") (str "INH") ('3' :: '2' :: '1' :: rest')
    else if c = '2' then
      parseFixedLengthMeasure (str "322") (rest'.take 1) (str "LENGTH (f)") (str "FOT") ('3' :: '2' :: '2' :: rest')
    else if c = '3' then
      parseFixedLengthMeasure (str "323") (rest'.take 1) (str "LENGTH (y)") (str "YRD") ('3' :: '2' :: '3' :: rest')
    else if c = '4' then
      parseFixedLengthMeasure (str "324") (rest'.take 1) (str "WIDTH (i)") (str "INH") ('3' :: '2' :: '4' :: rest')
    else if c = '5' then
      parseFixedLengthMeasure (str "325") (rest'.take 1) (str "WIDTH (f)") (str "FOT") ('3' :: '2' :: '5' :: rest')
    else if c = '6' then
      parseFixedLengthMeasure (str "326") (rest'.take 1) (str "WIDTH (y)") (str "YRD") ('3' :: '2' :: '6' :: rest')
    else if c = '7' then
      parseFixedLengthMeasure (str "327") (rest'.take 1) (str "HEIGHT (i)") (str "INH") ('3' :: '2' :: '7' :: rest')
    else if c = '8' then
      parseFixedLengthMeasure (str "328") (rest'.take 1) (str "HEIGHT (f)") (str "FOT") ('3' :: '2' :: '8' :: rest')
    else if c = '9' then
      parseFixedLengthMeasure (str "329") (rest'.take 1) (str "HEIGHT (y)") (str "YRD") ('3' :: '2' :: '9' :: rest')
    else .error (.invalidAi (str "32") [c])

set_option linter.unusedVariables false in
/-- Continuation of `identifyAI` at the digit prefix `33`: the `switch` arm of
`barcodeParser.ts` reached after consuming `"33"`; `rest` is the remainder of
the codestring after that prefix, and each decoder receives the full
codestring reconstructed from the digits already matched. -/
def identifyAI33 (rest : Str) (lotLen : Option Nat) (fncChar0 : Option Char) :
    Except BError ParseResult :=
  match rest with
  | [] => .error (.invalidAi (str "33") [])
  | c :: rest' =>
    if c = '0' then
      parseFixedLengthMeasure (str "330") (rest'.take 1) (str "GROSS WEIGHT (kg)") (str "KGM") ('3' :: '3' :: '0' :: rest')
    else if c = '1' then
      parseFixedLengthMeasure (str "331") (rest'.take 1) (str "LENGTH (m), log") (str "MTR") ('3' :: '3' :: '1' :: rest')
    else if c = '2' then
      parseFixedLengthMeasure (str "332") (rest'.take 1) (str "WIDTH (m), log") (str "MTR") ('3' :: '3' :: '2' :: rest')
    else if c = '3' then
      parseFixedLengthMeasure (str "333") (rest'.take 1) (str "HEIGHT (m), log") (str "MTR") ('3' :: '3' :: '3' :: rest')
    else if c = '4' then
      parseFixedLengthMeasure (str "334") (rest'.take 1) (str "AREA (m2), log") (str "MTK") ('3' :: '3' :: '4' :: rest')
    else if c = '5' then
      parseFixedLengthMeasure (str "335") (rest'.take 1) (str "VOLUME (l), log") (str "LTR") ('3' :: '3' :: '5' :: rest')
    else if c = '6' then
      parseFixedLengthMeasure (str "336") (rest'.take 1) (str "VOLUME (m3), log") (str "MTQ") ('3' :: '3' :: '6' :: rest')
    else if c = '7' then
      parseFixedLengthMeasure (str "337") (rest'.take 1) (str "KG PER m²") (str "28") ('3' :: '3' :: '7' :: rest')
    else .error (.invalidAi (str "33") [c])

set_option linter.unusedVariables false in
/-- Continuation of `identifyAI` at the digit prefix `34`: the `switch` arm of
`barcodeParser.ts` reached after consuming `"34"`; `rest` is the remainder of
the codestring after that prefix, and each decoder receives the full
codestring reconstructed from the digits already matched. -/
def identifyAI34 (rest : Str) (lotLen : Option Nat) (fncChar0 : Option Char) :
    Except BError ParseResult :=
  match rest with
  | [] => .error (.invalidAi (str "33") [])
  | c :: rest' =>
    if c = '0' then
      parseFixedLengthMeasure (str "340") (rest'.take 1) (str "GROSS WEIGHT (lb)") (str "LBR") ('3' :: '4' :: '0' :: rest')
    else if c = '1' then
      parseFixedLengthMeasure (str "341") (rest'.take 1) (str "LENGTH (i), log") (str "INH") ('3' :: '4' :: '1' :: rest')
    else if c = '2' then
      parseFixedLengthMeasure (str "342") (rest'.take 1) (str "LENGTH (f), log") (str "FOT") ('3' :: '4' :: '2' :: rest')
    else if c = '3' then
      parseFixedLengthMeasure (str "343") (rest'.take 1) (str "LENGTH (y), log") (str "YRD") ('3' :: '4' :: '3' :: rest')
    else if c = '4' then
      parseFixedLengthMeasure (str "344") (rest'.take 1) (str "WIDTH (i), log") (str "INH") ('3' :: '4' :: '4' :: rest')
    else if c = '5' then
      parseFixedLengthMeasure (str "345") (rest'.take 1) (str "WIDTH (f), log") (str "FOT") ('3' :: '4' :: '5' :: rest')
    else if c = '6' then
      parseFixedLengthMeasure (str "346") (rest'.take 1) (str "WIDTH (y), log") (str "YRD") ('3' :: '4' :: '6' :: rest')
    else if c = '7' then
      parseFixedLengthMeasure (str "347") (rest'.take 1) (str "HEIGHT (i), log") (str "INH") ('3' :: '4' :: '7' :: rest')
    else if c = '8' then
      parseFixedLengthMeasure (str "348") (rest'.take 1) (str "HEIGHT (f), log") (str "FOT") ('3' :: '4' :: '8' :: rest')
    else if c = '9' then
      parseFixedLengthMeasure (str "349") (rest'.take 1) (str "HEIGHT (y), log") (str "YRD") ('3' :: '4' :: '9' :: rest')
    -- the source reports the stale prefix "33" here
    else .error (.invalidAi (str "33") [c])

set_option linter.unusedVariables false in
/-- Continuation of `identifyAI` at the digit prefix `35`: the `switch` arm of
`barcodeParser.ts` reached after consuming `"35"`; `rest` is the remainder of
the codestring after that prefix, and each decoder receives the full
codestring reconstructed from the digits already matched. -/
def identifyAI35 (rest : Str) (lotLen : Option Nat) (fncChar0 : Option Char) :
    Except BError ParseResult :=
  match rest with
  | [] => .error (.invalidAi (str "35") [])
  | c :: rest' =>
    if c = '0' then
      parseFixedLengthMeasure (str "350") (rest'.take 1) (str "AREA (i2)") (str "INK") ('3' :: '5' :: '0' :: rest')
    else if c = '1' then
      parseFixedLengthMeasure (str "351") (rest'.take 1) (str "AREA (f2)") (str "FTK") ('3' :: '5' :: '1' :: rest')
    else if c = '2' then
      parseFixedLengthMeasure (str "352") (rest'.take 1) (str "AREA (y2)") (str "YDK") ('3' :: '5' :: '2' :: rest')
    else if c = '3' then
      parseFixedLengthMeasure (str "353") (rest'.take 1) (str "AREA (i2), log") (str "INK") ('3' :: '5' :: '3' :: rest')
    else if c = '4' then
      parseFixedLengthMeasure (str "354") (rest'.take 1) (str "AREA (f2), log") (str "FTK") ('3' :: '5' :: '4' :: rest')
    else if c = '5' then
      parseFixedLengthMeasure (str "355") (rest'.take 1) (str "AREA (y2), log") (str "YDK") ('3' :: '5' :: '5' :: rest')
    else if c = '6' then
      parseFixedLengthMeasure (str "356") (rest'.take 1) (str "NET WEIGHT (t)") (str "APZ") ('3' :: '5' :: '6' :: rest')
    else if c = '7' then
      parseFixedLengthMeasure (str "357") (rest'.take 1) (str "NET VOLUME (oz)") (str "ONZ") ('3' :: '5' :: '7' :: rest')
    else .error (.invalidAi (str "35") [c])

set_option linter.unusedVariables false in
/-- Continuation of `identifyAI` at the digit prefix `36`: the `switch` arm of
`barcodeParser.ts` reached after consuming `"36"`; `rest` is the remainder of
the codestring after that prefix, and each decoder receives the full
codestring reconstructed from the digits already matched. -/
def identifyAI36 (rest : Str) (lotLen : Option Nat) (fncChar0 : Option Char) :
    Except BError ParseResult :=
  match rest with
  | [] => .error (.invalidAi (str "36") [])
  | c :: rest' =>
    if c = '0' then
      parseFixedLengthMeasure (str "360") (rest'.take 1) (str "NET VOLUME (q)") (str "QT") ('3' :: '6' :: '0' :: rest')
    else if c = '1' then
      parseFixedLengthMeasure (str "361") (rest'.take 1) (str "NET VOLUME (g)") (str "GLL") ('3' :: '6' :: '1' :: rest')
    else if c = '2' then
      parseFixedLengthMeasure (str "362") (rest'.take 1) (str "VOLUME (q), log") (str "QT") ('3' :: '6' :: '2' :: rest')
    else if c = '3' then
      parseFixedLengthMeasure (str "363") (rest'.take 1) (str "VOLUME (g), log") (str "GLL") ('3' :: '6' :: '3' :: rest')
    else if c = '4' then
      parseFixedLengthMeasure (str "364") (rest'.take 1) (str "VOLUME (i3)") (str "INQ") ('3' :: '6' :: '4' :: rest')
    else if c = '5' then
      parseFixedLengthMeasure (str "365") (rest'.take 1) (str "VOLUME (f3)") (str "FTQ") ('3' :: '6' :: '5' :: rest')
    else if c = '6' then
      parseFixedLengthMeasure (str "366") (rest'.take 1) (str "VOLUME (y3)") (str "YDQ") ('3' :: '6' :: '6' :: rest')
    else if c = '7' then
      parseFixedLengthMeasure (str "367") (rest'.take 1) (str "VOLUME (i3), log") (str "INQ") ('3' :: '6' :: '7' :: rest')
    else if c = '8' then
      parseFixedLengthMeasure (str "368") (rest'.take 1) (str "VOLUME (f3), log") (str "FTQ") ('3' :: '6' :: '8' :: rest')
    else if c = '9' then
      parseFixedLengthMeasure (str "369") (rest'.take 1) (str "VOLUME (y3), log") (str "YDQ") ('3' :: '6' :: '9' :: rest')
    else .error (.invalidAi (str "36") [c])

set_option linter.unusedVariables false in
/-- Continuation of `identifyAI` at the digit prefix `39`: the `switch` arm of
`barcodeParser.ts` reached after consuming `"39"`; `rest` is the remainder of
the codestring after that prefix, and each decoder receives the full
codestring reconstructed from the digits already matched. -/
def identifyAI39 (rest : Str) (lotLen : Option Nat) (fncChar0 : Option Char) :
    Except BError ParseResult :=
  match rest with
  | [] => .error (.invalidAi (str "39") [])
  | c :: rest' =>
    if c = '0' then
      parseVariableLengthMeasure (str "390") (rest'.take 1) (str "AMOUNT") [] ('3' :: '9' :: '0' :: rest') (fncChar0.getD GROUP_SEPARATOR)
    else if c = '1' then
      parseVariableLengthWithISONumbers (str "391") (rest'.take 1) (str "AMOUNT") ('3' :: '9' :: '1' :: rest') (fncChar0.getD GROUP_SEPARATOR)
    else if c = '2' then
      parseVariableLengthMeasure (str "392") (rest'.take 1) (str "PRICE") [] ('3' :: '9' :: '2' :: rest') (fncChar0.getD GROUP_SEPARATOR)
    else if c = '3' then
      parseVariableLengthWithISONumbers (str "393") (rest'.take 1) (str "PRICE") ('3' :: '9' :: '3' :: rest') (fncChar0.getD GROUP_SEPARATOR)
    else .error (.invalidAi (str "39") [c])

set_option linter.unusedVariables false in
/-- Continuation of `identifyAI` at the digit prefix `3`: the `switch` arm of
`barcodeParser.ts` reached after consuming `"3"`; `rest` is the remainder of
the codestring after that prefix, and each decoder receives the full
codestring reconstructed from the digits already matched. -/
def identifyAI3 (rest : Str) (lotLen : Option Nat) (fncChar0 : Option Char) :
    Except BError ParseResult :=
  match rest with
  | [] => .error (.invalidAi (str "3") [])
  | c :: rest' =>
    if c = '0' then
      parseVariableLength (str "30") (str "VAR. COUNT") ('3' :: '0' :: rest') (fncChar0.getD GROUP_SEPARATOR) (some 8)
    else if c = '1' then
      identifyAI31 rest' lotLen fncChar0
    else if c = '2' then
      identifyAI32 rest' lotLen fncChar0
    else if c = '3' then
      identifyAI33 rest' lotLen fncChar0
    else if c = '4' then
      identifyAI34 rest' lotLen fncChar0
    else if c = '5' then
      identifyAI35 rest' lotLen fncChar0
    else if c = '6' then
      identifyAI36 rest' lotLen fncChar0
    else if c = '7' then
      parseVariableLength (str "37") (str "COUNT") ('3' :: '7' :: rest') (fncChar0.getD GROUP_SEPARATOR) (some 8)
    else if c = '9' then
      identifyAI39 rest' lotLen fncChar0
    else .error (.invalidAi (str "3") [c])

set_option linter.unusedVariables false in
/-- Continuation of `identifyAI` at the digit prefix `40`: the `switch` arm of
`barcodeParser.ts` reached after consuming `"40"`; `rest` is the remainder of
the codestring after that prefix, and each decoder receives the full
codestring reconstructed from the digits already matched. -/
def identifyAI40 (rest : Str) (lotLen : Option Nat) (fncChar0 : Option Char) :
    Except BError ParseResult :=
  match rest with
  | [] => .error (.invalidAi (str "40") [])
  | c :: rest' =>
    if c = '0' then
      parseVariableLength (str "400") (str "ORDER NUMBER") ('4' :: '0' :: '0' :: rest') (fncChar0.getD GROUP_SEPARATOR) (some 30)
    else if c = '1' then
      parseVariableLength (str "401") (str "GINC") ('4' :: '0' :: '1' :: rest') (fncChar0.getD GROUP_SEPARATOR)
    else if c = '2' then
      parseVariableLength (str "402") (str "GSIN") ('4' :: '0' :: '2' :: rest') (fncChar0.getD GROUP_SEPARATOR) (some 17)
    else if c = '3' then
      parseVariableLength (str "403") (str "ROUTE") ('4' :: '0' :: '3' :: rest') (fncChar0.getD GROUP_SEPARATOR) (some 30)
    else .error (.invalidAi (str "40") [c])

set_option linter.unusedVariables false in
/-- Continuation of `identifyAI` at the digit prefix `41`: the `switch` arm of
`barcodeParser.ts` reached after consuming `"41"`; `rest` is the remainder of
the codestring after that prefix, and each decoder receives the full
codestring reconstructed from the digits already matched. -/
def identifyAI41 (rest : Str) (lotLen : Option Nat) (fncChar0 : Option Char) :
    Except BError ParseResult :=
  match rest with
  | [] => .error (.invalidAi (str "41") [])
  | c :: rest' =>
    if c = '0' then
      parseFixedLength (str "410") (str "SHIP TO LOC") 13 ('4' :: '1' :: '0' :: rest')
    else if c = '1' then
      parseFixedLength (str "411") (str "BILL TO") 13 ('4' :: '1' :: '1' :: rest')
    else if c = '2' then
      parseFixedLength (str "412") (str "PURCHASE FROM") 13 ('4' :: '1' :: '2' :: rest')
    else if c = '3' then
      parseFixedLength (str "413") (str "SHIP FOR LOC") 13 ('4' :: '1' :: '3' :: rest')
    else if c = '4' then
      parseFixedLength (str "414") (str "LOC NO") 13 ('4' :: '1' :: '4' :: rest')
    else if c = '5' then
      parseFixedLength (str "415") (str "PAY TO") 13 ('4' :: '1' :: '5' :: rest')
    else if c = '6' then
      parseFixedLength (str "416") (str "PROD/SERV LOC") 13 ('4' :: '1' :: '6' :: rest')
    else if c = '7' then
      parseFixedLength (str "417") (str "PARTY") 13 ('4' :: '1' :: '7' :: rest')
    else .error (.invalidAi (str "41") [c])

set_option linter.unusedVariables false in
/-- Continuation of `identifyAI` at the digit prefix `42`: the `switch` arm of
`barcodeParser.ts` reached after consuming `"42"`; `rest` is the remainder of
the codestring after that prefix, and each decoder receives the full
codestring reconstructed from the digits already matched. -/
def identifyAI42 (rest : Str) (lotLen : Option Nat) (fncChar0 : Option Char) :
    Except BError ParseResult :=
  match rest with
  | [] => .error (.invalidAi (str "42") [])
  | c :: rest' =>
    if c = '0' then
      parseVariableLength (str "420") (str "SHIP TO POST") ('4' :: '2' :: '0' :: rest') (fncChar0.getD GROUP_SEPARATOR) (some 20)
    else if c = '1' then
      parseVariableLengthWithISOChars (str "421") (str "SHIP TO POST") ('4' :: '2' :: '1' :: rest') (fncChar0.getD GROUP_SEPARATOR)
    else if c = '2' then
      parseFixedLength (str "422") (str "ORIGIN") 3 ('4' :: '2' :: '2' :: rest')
    else if c = '3' then
      parseVariableLength (str "423") (str "COUNTRY - INITIAL PROCESS.") ('4' :: '2' :: '3' :: rest') (fncChar0.getD GROUP_SEPARATOR) (some 15)
    else if c = '4' then
      parseFixedLength (str "424") (str "COUNTRY - PROCESS.") 3 ('4' :: '2' :: '4' :: rest')
    else if c = '5' then
      parseFixedLength (str "425") (str "COUNTRY - DISASSEMBLY") 3 ('4' :: '2' :: '5' :: rest')
    else if c = '6' then
      parseFixedLength (str "426") (str "COUNTRY - FULL PROCESS") 3 ('4' :: '2' :: '6' :: rest')
    else if c = '7' then
      parseVariableLength (str "427") (str "ORIGIN SUBDIVISION") ('4' :: '2' :: '7' :: rest') (fncChar0.getD GROUP_SEPARATOR) (some 3)
    else .error (.invalidAi (str "42") [c])

set_option linter.unusedVariables false in
/-- Continuation of `identifyAI` at the digit prefix `4`: the `switch` arm of
`barcodeParser.ts` reached after consuming `"4"`; `rest` is the remainder of
the codestring after that prefix, and each decoder receives the full
codestring reconstructed from the digits already matched. -/
def identifyAI4 (rest : Str) (lotLen : Option Nat) (fncChar0 : Option Char) :
    Except BError ParseResult :=
  match rest with
  | [] => .error (.invalidAi (str "4") [])
  | c :: rest' =>
    if c = '0' then
      identifyAI40 rest' lotLen fncChar0
    else if c = '1' then
      identifyAI41 rest' lotLen fncChar0
    else if c = '2' then
      identifyAI42 rest' lotLen fncChar0
    -- AIs 430-439 are unimplemented in the source (marked TODO); any
            -- second digit other than 0/1/2 falls to this default
    else .error (.invalidAi (str "4") [c])

set_option linter.unusedVariables false in
/-- Continuation of `identifyAI` at the digit prefix `700`: the `switch` arm of
`barcodeParser.ts` reached after consuming `"700"`; `rest` is the remainder of
the codestring after that prefix, and each decoder receives the full
codestring reconstructed from the digits already matched. -/
def identifyAI700 (rest : Str) (lotLen : Option Nat) (fncChar0 : Option Char) :
    Except BError ParseResult :=
  match rest with
  -- the source reports the third number in this default
  | [] => .error (.invalidAi (str "70") (str "0"))
  | c :: rest' =>
    if c = '1' then
      parseVariableLength (str "7001") (str "NSN") ('7' :: '0' :: '0' :: '1' :: rest') (fncChar0.getD GROUP_SEPARATOR) (some 13)
    else if c = '2' then
      parseVariableLength (str "7002") (str "MEAT CUT") ('7' :: '0' :: '0' :: '2' :: rest') (fncChar0.getD GROUP_SEPARATOR)
    else if c = '3' then
      parseVariableLength (str "7003") (str "EXPIRY TIME") ('7' :: '0' :: '0' :: '3' :: rest') (fncChar0.getD GROUP_SEPARATOR) (some 10)
    else if c = '4' then
      parseVariableLength (str "7004") (str "ACTIVE POTENCY") ('7' :: '0' :: '0' :: '4' :: rest') (fncChar0.getD GROUP_SEPARATOR) (some 6)
    -- the source reports the third number in this default
    else .error (.invalidAi (str "70") (str "0"))

set_option linter.unusedVariables false in
/-- Continuation of `identifyAI` at the digit prefix `70`: the `switch` arm of
`barcodeParser.ts` reached after consuming `"70"`; `rest` is the remainder of
the codestring after that prefix, and each decoder receives the full
codestring reconstructed from the digits already matched. -/
def identifyAI70 (rest : Str) (lotLen : Option Nat) (fncChar0 : Option Char) :
    Except BError ParseResult :=
  match rest with
  | [] => .error (.invalidAi (str "70") [])
  | c :: rest' =>
    if c = '0' then
      identifyAI700 rest' lotLen fncChar0
    else if c = '3' then
      parseVariableLengthWithISOChars (str "703" ++ rest'.take 1) (str "PROCESSOR # " ++ rest'.take 1) ('7' :: '0' :: '3' :: rest') (fncChar0.getD GROUP_SEPARATOR)
    else .error (.invalidAi (str "70") [c])

set_option linter.unusedVariables false in
/-- Continuation of `identifyAI` at the digit prefix `71`: the `switch` arm of
`barcodeParser.ts` reached after consuming `"71"`; `rest` is the remainder of
the codestring after that prefix, and each decoder receives the full
codestring reconstructed from the digits already matched. -/
def identifyAI71 (rest : Str) (lotLen : Option Nat) (fncChar0 : Option Char) :
    Except BError ParseResult :=
  match rest with
  | [] => .error (.invalidAi (str "71") [])
  | c :: rest' =>
    if c = '0' then
      parseVariableLength (str "710") (str "NHRN PZN") ('7' :: '1' :: '0' :: rest') (fncChar0.getD GROUP_SEPARATOR)
    else if c = '1' then
      parseVariableLength (str "711") (str "NHRN CIP") ('7' :: '1' :: '1' :: rest') (fncChar0.getD GROUP_SEPARATOR)
    else if c = '2' then
      parseVariableLength (str "712") (str "NHRN CN") ('7' :: '1' :: '2' :: rest') (fncChar0.getD GROUP_SEPARATOR)
    else if c = '3' then
      parseVariableLength (str "713") (str "NHRN DRN") ('7' :: '1' :: '3' :: rest') (fncChar0.getD GROUP_SEPARATOR)
    else .error (.invalidAi (str "71") [c])

set_option linter.unusedVariables false in
/-- Continuation of `identifyAI` at the digit prefix `7`: the `switch` arm of
`barcodeParser.ts` reached after consuming `"7"`; `rest` is the remainder of
the codestring after that prefix, and each decoder receives the full
codestring reconstructed from the digits already matched. -/
def identifyAI7 (rest : Str) (lotLen : Option Nat) (fncChar0 : Option Char) :
    Except BError ParseResult :=
  match rest with
  | [] => .error (.invalidAi (str "7") [])
  | c :: rest' =>
    if c = '0' then
      identifyAI70 rest' lotLen fncChar0
    else if c = '1' then
      identifyAI71 rest' lotLen fncChar0
    else .error (.invalidAi (str "7") [c])

set_option linter.unusedVariables false in
/-- Continuation of `identifyAI` at the digit prefix `800`: the `switch` arm of
`barcodeParser.ts` reached after consuming `"800"`; `rest` is the remainder of
the codestring after that prefix, and each decoder receives the full
codestring reconstructed from the digits already matched. -/
def identifyAI800 (rest : Str) (lotLen : Option Nat) (fncChar0 : Option Char) :
    Except BError ParseResult :=
  match rest with
  | [] => .error (.invalidAi (str "800") [])
  | c :: rest' =>
    if c = '1' then
      parseVariableLength (str "8001") (str "DIMENSIONS") ('8' :: '0' :: '0' :: '1' :: rest') (fncChar0.getD GROUP_SEPARATOR) (some 14)
    else if c = '2' then
      parseVariableLength (str "8002") (str "CMT No") ('8' :: '0' :: '0' :: '2' :: rest') (fncChar0.getD GROUP_SEPARATOR)
    else if c = '3' then
      parseVariableLength (str "8003") (str "GRAI") ('8' :: '0' :: '0' :: '3' :: rest') (fncChar0.getD GROUP_SEPARATOR)
    else if c = '4' then
      parseVariableLength (str "8004") (str "GIAI") ('8' :: '0' :: '0' :: '4' :: rest') (fncChar0.getD GROUP_SEPARATOR)
    else if c = '5' then
      parseVariableLength (str "8005") (str "PRICE PER UNIT") ('8' :: '0' :: '0' :: '5' :: rest') (fncChar0.getD GROUP_SEPARATOR) (some 6)
    else if c = '6' then
      parseVariableLength (str "8006") (str "GCTIN") ('8' :: '0' :: '0' :: '6' :: rest') (fncChar0.getD GROUP_SEPARATOR) (some 18)
    else if c = '7' then
      parseVariableLength (str "8007") (str "IBAN") ('8' :: '0' :: '0' :: '7' :: rest') (fncChar0.getD GROUP_SEPARATOR)
    else if c = '8' then
      parseVariableLength (str "8008") (str "PROD TIME") ('8' :: '0' :: '0' :: '8' :: rest') (fncChar0.getD GROUP_SEPARATOR) (some 12)
    else .error (.invalidAi (str "800") [c])

set_option linter.unusedVariables false in
/-- Continuation of `identifyAI` at the digit prefix `801`: the `switch` arm of
`barcodeParser.ts` reached after consuming `"801"`; `rest` is the remainder of
the codestring after that prefix, and each decoder receives the full
codestring reconstructed from the digits already matched. -/
def identifyAI801 (rest : Str) (lotLen : Option Nat) (fncChar0 : Option Char) :
    Except BError ParseResult :=
  match rest with
  | [] => .error (.invalidAi (str "801") [])
  | c :: rest' =>
    if c = '0' then
      parseVariableLength (str "8010") (str "CPID") ('8' :: '0' :: '1' :: '0' :: rest') (fncChar0.getD GROUP_SEPARATOR)
    else if c = '1' then
      parseVariableLength (str "8011") (str "CPID SERIAL") ('8' :: '0' :: '1' :: '1' :: rest') (fncChar0.getD GROUP_SEPARATOR)
    else if c = '7' then
      parseVariableLength (str "8017") (str "GSRN - PROVIDER") ('8' :: '0' :: '1' :: '7' :: rest') (fncChar0.getD GROUP_SEPARATOR) (some 18)
    else if c = '8' then
      parseVariableLength (str "8018") (str "GSRN - RECIPIENT") ('8' :: '0' :: '1' :: '8' :: rest') (fncChar0.getD GROUP_SEPARATOR) (some 18) true
    else if c = '9' then
      parseVariableLength (str "8019") (str "SRIN") ('8' :: '0' :: '1' :: '9' :: rest') (fncChar0.getD GROUP_SEPARATOR) none true
    else .error (.invalidAi (str "801") [c])

set_option linter.unusedVariables false in
/-- Continuation of `identifyAI` at the digit prefix `802`: the `switch` arm of
`barcodeParser.ts` reached after consuming `"802"`; `rest` is the remainder of
the codestring after that prefix, and each decoder receives the full
codestring reconstructed from the digits already matched. -/
def identifyAI802 (rest : Str) (lotLen : Option Nat) (fncChar0 : Option Char) :
    Except BError ParseResult :=
  match rest with
  | [] => .error (.invalidAi (str "802") [])
  | c :: rest' =>
    if c = '0' then
      parseVariableLength (str "8020") (str "REF No") ('8' :: '0' :: '2' :: '0' :: rest') (fncChar0.getD GROUP_SEPARATOR)
    else .error (.invalidAi (str "802") [c])

set_option linter.unusedVariables false in
/-- Continuation of `identifyAI` at the digit prefix `80`: the `switch` arm of
`barcodeParser.ts` reached after consuming `"80"`; `rest` is the remainder of
the codestring after that prefix, and each decoder receives the full
codestring reconstructed from the digits already matched. -/
def identifyAI80 (rest : Str) (lotLen : Option Nat) (fncChar0 : Option Char) :
    Except BError ParseResult :=
  match rest with
  | [] => .error (.invalidAi (str "80") [])
  | c :: rest' =>
    if c = '0' then
      identifyAI800 rest' lotLen fncChar0
    else if c = '1' then
      identifyAI801 rest' lotLen fncChar0
    else if c = '2' then
      identifyAI802 rest' lotLen fncChar0
    else .error (.invalidAi (str "80") [c])

set_option linter.unusedVariables false in
/-- Continuation of `identifyAI` at the digit prefix `810`: the `switch` arm of
`barcodeParser.ts` reached after consuming `"810"`; `rest` is the remainder of
the codestring after that prefix, and each decoder receives the full
codestring reconstructed from the digits already matched. -/
def identifyAI810 (rest : Str) (lotLen : Option Nat) (fncChar0 : Option Char) :
    Except BError ParseResult :=
  match rest with
  | [] => .error (.invalidAi (str "810") [])
  | c :: rest' =>
    if c = '0' then
      parseVariableLength (str "8100") (str "-") ('8' :: '1' :: '0' :: '0' :: rest') (fncChar0.getD GROUP_SEPARATOR) (some 6)
    else if c = '1' then
      parseVariableLength (str "8101") (str "-") ('8' :: '1' :: '0' :: '1' :: rest') (fncChar0.getD GROUP_SEPARATOR) (some 10)
    else if c = '2' then
      parseVariableLength (str "8102") (str "-") ('8' :: '1' :: '0' :: '2' :: rest') (fncChar0.getD GROUP_SEPARATOR) (some 2)
    else .error (.invalidAi (str "810") [c])

set_option linter.unusedVariables false in
/-- Continuation of `identifyAI` at the digit prefix `811`: the `switch` arm of
`barcodeParser.ts` reached after consuming `"811"`; `rest` is the remainder of
the codestring after that prefix, and each decoder receives the full
codestring reconstructed from the digits already matched. -/
def identifyAI811 (rest : Str) (lotLen : Option Nat) (fncChar0 : Option Char) :
    Except BError ParseResult :=
  match rest with
  | [] => .error (.invalidAi (str "811") [])
  | c :: rest' =>
    if c = '0' then
      parseVariableLength (str "8110") (str "-") ('8' :: '1' :: '1' :: '0' :: rest') (fncChar0.getD GROUP_SEPARATOR)
    else .error (.invalidAi (str "811") [c])

set_option linter.unusedVariables false in
/-- Continuation of `identifyAI` at the digit prefix `81`: the `switch` arm of
`barcodeParser.ts` reached after consuming `"81"`; `rest` is the remainder of
the codestring after that prefix, and each decoder receives the full
codestring reconstructed from the digits already matched. -/
def identifyAI81 (rest : Str) (lotLen : Option Nat) (fncChar0 : Option Char) :
    Except BError ParseResult :=
  match rest with
  | [] => .error (.invalidAi (str "81") [])
  | c :: rest' =>
    if c = '0' then
      identifyAI810 rest' lotLen fncChar0
    else if c = '1' then
      identifyAI811 rest' lotLen fncChar0
    else .error (.invalidAi (str "81") [c])

set_option linter.unusedVariables false in
/-- Continuation of `identifyAI` at the digit prefix `82`: the `switch` arm of
`barcodeParser.ts` reached after consuming `"82"`; `rest` is the remainder of
the codestring after that prefix, and each decoder receives the full
codestring reconstructed from the digits already matched. -/
def identifyAI82 (rest : Str) (lotLen : Option Nat) (fncChar0 : Option Char) :
    Except BError ParseResult :=
  match rest with
  | [] => .error (.invalidAi (str "82") [])
  | c :: rest' =>
    if c = '0' then
      parseVariableLength (str "8200") (str "PRODUCT URL") ('8' :: '2' :: '0' :: rest') (fncChar0.getD GROUP_SEPARATOR)
    else .error (.invalidAi (str "82") [c])

set_option linter.unusedVariables false in
/-- Continuation of `identifyAI` at the digit prefix `8`: the `switch` arm of
`barcodeParser.ts` reached after consuming `"8"`; `rest` is the remainder of
the codestring after that prefix, and each decoder receives the full
codestring reconstructed from the digits already matched. -/
def identifyAI8 (rest : Str) (lotLen : Option Nat) (fncChar0 : Option Char) :
    Except BError ParseResult :=
  match rest with
  | [] => .error (.invalidAi (str "8") [])
  | c :: rest' =>
    if c = '0' then
      identifyAI80 rest' lotLen fncChar0
    else if c = '1' then
      identifyAI81 rest' lotLen fncChar0
    else if c = '2' then
      identifyAI82 rest' lotLen fncChar0
    else .error (.invalidAi (str "8") [c])

set_option linter.unusedVariables false in
/-- Continuation of `identifyAI` at the digit prefix `9`: the `switch` arm of
`barcodeParser.ts` reached after consuming `"9"`; `rest` is the remainder of
the codestring after that prefix, and each decoder receives the full
codestring reconstructed from the digits already matched. -/
def identifyAI9 (rest : Str) (lotLen : Option Nat) (fncChar0 : Option Char) :
    Except BError ParseResult :=
  match rest with
  | [] => .error (.invalidAi (str "9") [])
  | c :: rest' =>
    if c = '0' then
      parseVariableLength (str "90") (str "INTERNAL") ('9' :: '0' :: rest') (fncChar0.getD GROUP_SEPARATOR)
    else if c = '1' then
      parseVariableLength (str "91") (str "INTERNAL") ('9' :: '1' :: rest') (fncChar0.getD GROUP_SEPARATOR)
    else if c = '2' then
      parseVariableLength (str "92") (str "INTERNAL") ('9' :: '2' :: rest') (fncChar0.getD GROUP_SEPARATOR)
    else if c = '3' then
      parseVariableLength (str "93") (str "INTERNAL") ('9' :: '3' :: rest') (fncChar0.getD GROUP_SEPARATOR)
    else if c = '4' then
      parseVariableLength (str "94") (str "INTERNAL") ('9' :: '4' :: rest') (fncChar0.getD GROUP_SEPARATOR)
    else if c = '5' then
      parseVariableLength (str "95") (str "INTERNAL") ('9' :: '5' :: rest') (fncChar0.getD GROUP_SEPARATOR)
    else if c = '6' then
      parseVariableLength (str "96") (str "INTERNAL") ('9' :: '6' :: rest') (fncChar0.getD GROUP_SEPARATOR)
    else if c = '7' then
      parseVariableLength (str "97") (str "INTERNAL") ('9' :: '7' :: rest') (fncChar0.getD GROUP_SEPARATOR)
    else if c = '8' then
      parseVariableLength (str "98") (str "INTERNAL") ('9' :: '8' :: rest') (fncChar0.getD GROUP_SEPARATOR)
    else if c = '9' then
      parseVariableLength (str "99") (str "INTERNAL") ('9' :: '9' :: rest') (fncChar0.getD GROUP_SEPARATOR)
    else .error (.invalidAi (str "9") [c])

/-- The dispatcher `identifyAI` from `barcodeParser.ts`: the nested `switch` over the first
characters of the codestring, decomposed by leading digit into the helpers
above.  The optional `fncChar` parameter defaults to `GROUP_SEPARATOR`
exactly as the source default parameter does. -/
def identifyAI (cs : Str) (lotLen : Option Nat) (fncChar0 : Option Char) :
    Except BError ParseResult :=
  match cs with
  | [] => .error (.invalidAi [] [])
  | c1 :: rest1 =>
    if c1 = '0' then identifyAI0 rest1 lotLen fncChar0
    else if c1 = '1' then identifyAI1 rest1 lotLen fncChar0
    else if c1 = '2' then identifyAI2 rest1 lotLen fncChar0
    else if c1 = '3' then identifyAI3 rest1 lotLen fncChar0
    else if c1 = '4' then identifyAI4 rest1 lotLen fncChar0
    else if c1 = '7' then identifyAI7 rest1 lotLen fncChar0
    else if c1 = '8' then identifyAI8 rest1 lotLen fncChar0
    else if c1 = '9' then identifyAI9 rest1 lotLen fncChar0
    else .error (.invalidAi [] [c1])

/-! ## Decode loop (`parseBarcode` in `barcodeParser.ts`) -/

/-- One symbology-identifier step: `barcode.slice(0, 3)` against the fixed
map, else no identifier. -/
def stripSymbology (barcode : Str) : Str × Str :=
  let symbologyIdentifier := jsSlice barcode 0 3
  if symbologyIdentifier = str "]C1" then (str "GS1-128", jsSliceFrom barcode 3)
  else if symbologyIdentifier = str "]e0" then (str "GS1 DataBar", jsSliceFrom barcode 3)
  else if symbologyIdentifier = str "]e1" then (str "GS1 Composite", jsSliceFrom barcode 3)
  else if symbologyIdentifier = str "]e2" then (str "GS1 Composite", jsSliceFrom barcode 3)
  else if symbologyIdentifier = str "]d2" then (str "GS1 DataMatrix", jsSliceFrom barcode 3)
  else if symbologyIdentifier = str "]Q3" then (str "GS1 QR Code", jsSliceFrom barcode 3)
  else ([], barcode)

/-- The `while (restOfBarcode.length > 0)` loop of `parseBarcode`, with
explicit fuel.  Crucially `identifyAI` is invoked as in the source — with the
`fncChar` argument omitted (`identifyAI(restOfBarcode, lotLen)`), so the field
decoders always see the default `GROUP_SEPARATOR`; the configured `fncChar`
only reaches `cleanCodestring`.  A `none` result means the fuel ran out with a
nonempty remainder; `parseLoop_total` below shows this cannot happen for
`fuel ≥ rest.length`. -/
def parseLoop (fuel : Nat) (rest : Str) (fncChar : Char) (lotLen : Option Nat)
    (acc : List ParsedElement) (denorm : Str) :
    Option (Except BError (List ParsedElement × Str)) :=
  match fuel with
  | 0 => if rest = [] then some (.ok (acc, denorm)) else none
  | fuel + 1 =>
    if rest = [] then some (.ok (acc, denorm))
    else
      match identifyAI rest lotLen none with
      | .error e => some (.error e)
      | .ok cur =>
        parseLoop fuel (cleanCodestring cur.codestring fncChar) fncChar lotLen
          (acc ++ [cur.element])
          (denorm ++ '(' :: cur.element.ai ++ ')' :: cur.element.dataString)

/-- `parseBarcode` (exported as `decode`): empty-barcode guard, symbology
identifier, then the element loop. -/
def parseBarcode (barcode : Str) (fncChar : Char) (lotLen : Option Nat) :
    Except BError BarcodeAnswer :=
  if barcode = [] then
    .error (.barcodeError .EmptyBarcode (str "31"))
  else
    let codeName := (stripSymbology barcode).1
    let restOfBarcode := (stripSymbology barcode).2
    match parseLoop restOfBarcode.length restOfBarcode fncChar lotLen [] [] with
    | some (.ok (items, denorm)) => .ok ⟨codeName, denorm, items⟩
    | some (.error e) => .error e
    | none => .error (.barcodeError .UnknownErr []) -- unreachable by `parseLoop_total`

/-- The normalization performed by `GS1Parser.decode` (`gs1Barcode.ts`):
replace every `(` by the configured terminator, delete every `)`, then strip
one leading terminator if present. -/
def gs1Normalize (barcode : Str) (fncChar : Char) : Str :=
  let n := (barcode.map (fun c => if c = '(' then fncChar else c)).filter (fun c => c ≠ ')')
  match n with
  | c :: rest => if c = fncChar then rest else n
  | [] => []

/-- `GS1Parser.decode`: normalization followed by `decode` with the
configured `fncChar` and `lotMaxLength`.  (The final re-keying of the element
list by `AIMap` into a `DecodeResult` dictionary is the out-of-core
collaborator of spec §1/§6 and does not alter the elements.) -/
def gs1Decode (barcode : Str) (fncChar : Char) (lotLen : Option Nat) :
    Except BError BarcodeAnswer :=
  parseBarcode (gs1Normalize barcode fncChar) fncChar lotLen

/-! ## Concrete claim evaluations -/

/-- C1: the claim that the configured terminator is used by every field
decoder invoked from the decode loop is false in the code: `parseBarcode`
calls `identifyAI(restOfBarcode, lotLen)` without forwarding `fncChar`, so the
decoders always search for the default 0x1D.  With terminator `#`, input
`10ABC#10DEF` yields a single AI-10 element whose payload `ABC#10DEF` runs
straight past the configured terminator (which it contains), instead of the
payload `ABC` followed by a second element `DEF`. -/
theorem C1_decoders_ignore_configured_terminator :
    parseBarcode (str "10ABC#10DEF") '#' none =
      .ok ⟨[], str "(10)ABC#10DEF",
           [⟨str "10", str "BATCH/LOT", .s (str "ABC#10DEF"), str "ABC#10DEF", []⟩]⟩ ∧
    '#' ∈ str "ABC#10DEF" := by
  constructor
  · rfl
  · decide

/-- C2: every codestring beginning with the digits `43` — in particular every
AI in 4300–4333 — is rejected with `InvalidAI` by the dispatch (the source
marks AIs 430–439 as an unimplemented TODO), so `decode` never produces an
element for the ship-to/return-to/service/temperature range. -/
theorem C2_ai_range_43xx_raises_invalid_ai :
    (∀ (cs : Str) (lotLen : Option Nat) (fncChar0 : Option Char),
      identifyAI ('4' :: '3' :: cs) lotLen fncChar0 = .error (.invalidAi (str "4") (str "3"))) ∧
    parseBarcode (str "4300ACME Corporation") GROUP_SEPARATOR none =
      .error (.invalidAi (str "4") (str "3")) ∧
    parseBarcode (str "4333US") GROUP_SEPARATOR none =
      .error (.invalidAi (str "4") (str "3")) := by
  refine ⟨fun cs lotLen fncChar0 => rfl, rfl, rfl⟩

/-- C7: the six fault cases of the public error taxonomy, each evaluated
through `decode`: empty input, unknown AI `26`, invalid date `991332` on AI
17, a 13-digit payload for the 14-digit AI 01, an empty variable-length
payload for AI 10 (both before a terminator and at end of input), and a
non-digit inside the 18-character numeric payload of AI 00. -/
theorem C7_fault_case_mapping :
    parseBarcode [] GROUP_SEPARATOR none =
      .error (.barcodeError .EmptyBarcode (str "31")) ∧
    parseBarcode (str "26ABC") GROUP_SEPARATOR none =
      .error (.invalidAi (str "2") (str "6")) ∧
    parseBarcode (str "17991332") GROUP_SEPARATOR none =
      .error (.barcodeError .InvalidDate (str "36")) ∧
    parseBarcode (str "010123456789012") GROUP_SEPARATOR none =
      .error (.barcodeError .FixedLengthDataTooShort (str "37")) ∧
    parseBarcode (str "10" ++ GROUP_SEPARATOR :: str "17260101") GROUP_SEPARATOR none =
      .error (.barcodeError .EmptyVariableLengthData (str "38")) ∧
    parseBarcode (str "10") GROUP_SEPARATOR none =
      .error (.barcodeError .EmptyVariableLengthData (str "38")) ∧
    parseBarcode (str "000012345678901234X5") GROUP_SEPARATOR none =
      .error (.barcodeError .NumericDataExpected (str "39")) := by
  refine ⟨rfl, rfl, rfl, rfl, rfl, rfl, rfl⟩

/-- C6 counterexample: month digits `1x` of payload `221x05` are not all
numeric, yet the date decoder does not raise `InvalidDate` — `parseInt("1x")`
reads the digit prefix `1`, so decoding succeeds with January 5, 2022. -/
theorem C6_counterexample_nonnumeric_month_accepted :
    (str "1x").all Char.isDigit = false ∧
    parseBarcode (str "17221x05") GROUP_SEPARATOR none =
      .ok ⟨[], str "(17)221x05",
           [⟨str "17", str "USE BY OR EXPIRY", .d (2022, 0, 5), str "221x05", []⟩]⟩ := by
  exact ⟨rfl, rfl⟩

/-- C8 counterexample: a double terminator between two elements is tolerated,
not rejected — `cleanCodestring` strips every leading terminator after an
element, so `10ABC<GS><GS>10DEF` decodes to two elements instead of raising
`EmptyVariableLengthData`. -/
theorem C8_counterexample_double_terminator_tolerated :
    parseBarcode (str "10ABC" ++ GROUP_SEPARATOR :: GROUP_SEPARATOR :: str "10DEF")
        GROUP_SEPARATOR none =
      .ok ⟨[], str "(10)ABC(10)DEF",
           [⟨str "10", str "BATCH/LOT", .s (str "ABC"), str "ABC", []⟩,
            ⟨str "10", str "BATCH/LOT", .s (str "DEF"), str "DEF", []⟩]⟩ := by
  exact rfl

/-- C10 counterexample: the variable-length measure decoder stores the value
`parseFloat` extracts, which is not `NaN` whenever the payload has a digit
prefix: AI 392x with non-numeric payload `12x4` succeeds and stores the
number 12 (from the decimal-inserted string `12.x4`), not `NaN`. -/
theorem C10_counterexample_non_digit_payload_stores_number :
    parseBarcode (str "392212x4") GROUP_SEPARATOR none =
      .ok ⟨[], str "(3922)12x4",
           [⟨str "3922", str "PRICE", .n (some ⟨12, 0⟩), str "12x4", []⟩]⟩ ∧
    (EData.n (some ⟨12, 0⟩) ≠ EData.n none) := by
  exact ⟨rfl, by decide⟩

/-- C3 counterexample: an AI-393x element does not round-trip through the
denormalized rendering, because `dataString` omits the 3-character ISO code:
`39329784711` decodes to price 47.11 with unit `978` and denormalizes to
`(3932)4711`, which re-decodes (same default configuration) to price 0.1 with
unit `471`. -/
theorem C3_counterexample_iso_number_roundtrip :
    gs1Decode (str "39329784711") GROUP_SEPARATOR none =
      .ok ⟨[], str "(3932)4711",
           [⟨str "3932", str "PRICE", .n (some ⟨4711, -2⟩), str "4711", str "978"⟩]⟩ ∧
    gs1Decode (str "(3932)4711") GROUP_SEPARATOR none =
      .ok ⟨[], str "(3932)1",
           [⟨str "3932", str "PRICE", .n (some ⟨1, -1⟩), str "1", str "471"⟩]⟩ ∧
    JSDec.toRat ⟨4711, -2⟩ ≠ JSDec.toRat ⟨1, -1⟩ := by
  refine ⟨rfl, rfl, ?_⟩
  simp only [JSDec.toRat]
  norm_num

/-! ## Toolkit lemmas about the JS string primitives -/

theorem jsIndex_natCast (n k : Nat) : jsIndex n (k : Int) = min k n := by
  simp [jsIndex]

theorem take_min_length (s : Str) (b : Nat) : s.take (min b s.length) = s.take b := by
  rcases le_total b s.length with h | h
  · rw [min_eq_left h]
  · rw [min_eq_right h, List.take_length, List.take_of_length_le h]

theorem drop_min_length (s : Str) (a : Nat) : s.drop (min a s.length) = s.drop a := by
  rcases le_total a s.length with h | h
  · rw [min_eq_left h]
  · rw [min_eq_right h, List.drop_length, List.drop_eq_nil_of_le h]

theorem jsSlice_nat (s : Str) (a b : Nat) : jsSlice s (a : Int) (b : Int) = (s.take b).drop a := by
  unfold jsSlice
  rw [jsIndex_natCast, jsIndex_natCast, take_min_length]
  rcases le_total a s.length with h | h
  · rw [min_eq_left h]
  · rw [min_eq_right h]
    have h1 : (s.take b).length ≤ s.length := by
      simp
    rw [List.drop_eq_nil_of_le h1, List.drop_eq_nil_of_le (le_trans h1 h)]

theorem jsSliceFrom_nat (s : Str) (a : Nat) : jsSliceFrom s (a : Int) = s.drop a := by
  unfold jsSliceFrom
  rw [jsIndex_natCast, drop_min_length]

theorem jsSlice_pre (p s : Str) (n : Nat) :
    jsSlice (p ++ s) (p.length : Int) ((p.length : Int) + (n : Int)) = s.take n := by
  have : ((p.length : Int) + (n : Int)) = ((p.length + n : Nat) : Int) := by push_cast; ring
  rw [this, jsSlice_nat, List.take_append, List.drop_left]

theorem jsSliceFrom_pre (p s : Str) : jsSliceFrom (p ++ s) (p.length : Int) = s := by
  rw [jsSliceFrom_nat, List.drop_left]

theorem jsIndexOfChar_lt_length {l : Str} {c : Char} {i : Nat}
    (h : jsIndexOfChar l c = some i) : i < l.length := by
  induction l generalizing i with
  | nil => simp [jsIndexOfChar] at h
  | cons a t ih =>
    rw [jsIndexOfChar] at h
    by_cases hc : a = c
    · simp only [hc, if_true, Option.some.injEq] at h
      simp [← h]
    · simp only [hc, if_false, Option.map_eq_some'] at h
      obtain ⟨j, hj, rfl⟩ := h
      have := ih hj
      simp only [List.length_cons]
      omega

theorem jsIndexOfChar_none_iff {l : Str} {c : Char} :
    jsIndexOfChar l c = none ↔ c ∉ l := by
  induction l with
  | nil => simp [jsIndexOfChar]
  | cons a t ih =>
    rw [jsIndexOfChar]
    by_cases hc : a = c
    · simp [hc]
    · have hca : c ≠ a := fun h => hc h.symm
      simp [hc, Option.map_eq_none', ih, hca]

theorem jsIndexOfChar_append_none {c : Char} {a : Str} (b : Str)
    (ha : c ∉ a) :
    jsIndexOfChar (a ++ b) c = (jsIndexOfChar b c).map (· + a.length) := by
  induction a with
  | nil => simp [Option.map_id']
  | cons x t ih =>
    have hx : ¬ x = c := fun h => ha (by simp [h])
    rw [List.cons_append, jsIndexOfChar]
    simp only [hx, if_false]
    rw [ih (fun h => ha (by simp [h]))]
    cases jsIndexOfChar b c
    · simp
    · simp only [Option.map_some', Option.map_map, List.length_cons]
      rw [Nat.add_assoc]

theorem jsIndexOfChar_found {c : Char} {a : Str} (b : Str) (ha : c ∉ a) :
    jsIndexOfChar (a ++ c :: b) c = some a.length := by
  rw [jsIndexOfChar_append_none (c :: b) ha, jsIndexOfChar]
  simp

theorem isDigit_not_ws {c : Char} (h : c.isDigit) : jsWhitespace c = false := by
  revert h
  unfold jsWhitespace Char.isDigit
  by_cases h1 : c = ' ' <;> by_cases h2 : c = '\t' <;> by_cases h3 : c = '\n' <;>
    by_cases h4 : c = '\r' <;> simp_all

theorem isDigit_ne_dash {c : Char} (h : c.isDigit) : c ≠ '-' := by
  intro he
  subst he
  simp [Char.isDigit] at h

theorem isDigit_ne_plus {c : Char} (h : c.isDigit) : c ≠ '+' := by
  intro he
  subst he
  simp [Char.isDigit] at h

theorem takeDigits_all {s : Str} (h : s.all Char.isDigit) : takeDigits s = s := by
  induction s with
  | nil => rfl
  | cons c t ih =>
    simp only [List.all_cons, Bool.and_eq_true] at h
    unfold takeDigits at *
    simp [h.1, ih h.2]

theorem jsParseInt_digits {s : Str} (hne : s ≠ []) (h : s.all Char.isDigit) :
    jsParseInt s = some ((digitsVal s : Nat) : Int) := by
  obtain ⟨c, t, rfl⟩ := List.exists_cons_of_ne_nil hne
  simp only [List.all_cons, Bool.and_eq_true] at h
  unfold jsParseInt
  rw [List.dropWhile_cons]
  simp only [isDigit_not_ws h.1, Bool.false_eq_true, if_false]
  simp only [isDigit_ne_dash h.1, isDigit_ne_plus h.1, if_false]
  rw [takeDigits_all (by simp [h.1, h.2])]
  simp

theorem cleanCodestring_nil (fnc : Char) : cleanCodestring [] fnc = [] := rfl

theorem cleanCodestring_cons_fnc (s : Str) (fnc : Char) :
    cleanCodestring (fnc :: s) fnc = cleanCodestring s fnc := by
  rw [cleanCodestring]
  simp

theorem cleanCodestring_of_head_ne (s : Str) (fnc : Char)
    (h : ∀ c ∈ s.take 1, c ≠ fnc) : cleanCodestring s fnc = s := by
  cases s with
  | nil => rfl
  | cons c t =>
    rw [cleanCodestring]
    simp [h c (by simp)]

theorem cleanCodestring_length_le (s : Str) (fnc : Char) :
    (cleanCodestring s fnc).length ≤ s.length := by
  induction s with
  | nil => simp [cleanCodestring]
  | cons c t ih =>
    rw [cleanCodestring]
    by_cases h : c = fnc
    · simp only [h, if_true]
      exact le_trans ih (by simp)
    · simp [h]

theorem jsIndexOfStr_self_pre {s pat : Str} (h : s.take pat.length = pat) :
    jsIndexOfStr s pat = some 0 := by
  unfold jsIndexOfStr
  have : s.length + 1 = 1 + s.length := by omega
  rw [this, List.range_add]
  have h1 : List.range 1 = [0] := rfl
  simp only [h1, List.find?_append]
  simp [h]

theorem jsReplaceFirst_pre {s pat : Str} (h : s.take pat.length = pat) :
    jsReplaceFirst s pat = s.drop pat.length := by
  unfold jsReplaceFirst
  rw [jsIndexOfStr_self_pre h]
  simp

/-! ## Calendar lemmas -/

set_option linter.unusedVariables false in
theorem daysInMonth_bounds (y m : Int) (h1 : 0 ≤ m) (h2 : m ≤ 11) :
    28 ≤ daysInMonth y m ∧ daysInMonth y m ≤ 31 := by
  unfold daysInMonth
  split_ifs <;> omega

set_option linter.unusedVariables false in
theorem normDays_fix (fuel : Nat) (y m d : Int) (h1 : 1 ≤ d) (h2 : d ≤ daysInMonth y m) :
    normDays fuel y m d = (y, m, d) := by
  cases fuel with
  | zero => rfl
  | succ n =>
    rw [normDays]
    simp only [show ¬ (d < 1) by omega, if_false, show ¬ (d > daysInMonth y m) by omega, if_false]

theorem jsDateNormalize_day0 (y m : Int) (h1 : 1 ≤ m) (h2 : m ≤ 12) :
    jsDateNormalize y m 0 = (y, m - 1, daysInMonth y (m - 1)) := by
  have h31 : ∀ z : Int, daysInMonth z 11 = 31 := fun z => by unfold daysInMonth; norm_num
  rcases eq_or_lt_of_le h2 with h12 | h11
  · subst h12
    show normDays 13 (y + Int.fdiv 12 12) (Int.emod 12 12) 0 = _
    have hf : Int.fdiv 12 12 = 1 := by decide
    have he : Int.emod 12 12 = 0 := by decide
    rw [hf, he, normDays]
    rw [if_pos (by decide : (0 : Int) < 1), if_pos rfl]
    rw [h31 (y + 1 - 1)]
    rw [normDays_fix 12 (y + 1 - 1) 11 (0 + 31) (by omega) (by rw [h31]; omega)]
    simp only [show (12 : Int) - 1 = 11 from by norm_num, h31]
    refine Prod.ext (by ring) (Prod.ext rfl (by norm_num))
  · have hm11 : m ≤ 11 := by omega
    have hf : m.fdiv 12 = 0 := by
      rw [Int.fdiv_eq_ediv _ (by omega : (0:Int) ≤ 12)]
      exact Int.ediv_eq_zero_of_lt (by omega) (by omega)
    have he : m.emod 12 = m := Int.emod_eq_of_lt (by omega) (by omega)
    show normDays 13 (y + m.fdiv 12) (m.emod 12) 0 = _
    rw [hf, he, show y + 0 = y from by ring, normDays]
    rw [if_pos (by decide : (0 : Int) < 1), if_neg (by omega : ¬ m = 0)]
    have hb := daysInMonth_bounds y (m - 1) (by omega) (by omega)
    rw [normDays_fix 12 y (m - 1) _ (by omega) (by omega)]
    refine Prod.ext rfl (Prod.ext rfl (by norm_num))

theorem normDays_ge (fuel : Nat) (y m d : Int) (h1 : 1 ≤ d) (hm1 : 0 ≤ m) (hm2 : m ≤ 11) :
    (normDays fuel y m d).1 = y ∧ (normDays fuel y m d).2.1 ≥ m ∨ (normDays fuel y m d).1 > y := by
  induction fuel generalizing y m d with
  | zero => left; exact ⟨rfl, le_refl m⟩
  | succ n ih =>
    rw [normDays]
    rw [if_neg (by omega : ¬ d < 1)]
    by_cases hd : d > daysInMonth y m
    · rw [if_pos hd]
      by_cases hm : m = 11
      · rw [if_pos hm]
        have hstep := ih (y + 1) 0 (d - daysInMonth y m)
          (by have := daysInMonth_bounds y m hm1 hm2; omega) (by omega) (by omega)
        rcases hstep with ⟨he, _⟩ | hgt
        · right; omega
        · right; omega
      · rw [if_neg hm]
        have hstep := ih y (m + 1) (d - daysInMonth y m)
          (by have := daysInMonth_bounds y m hm1 hm2; omega) (by omega) (by omega)
        rcases hstep with ⟨he, hge⟩ | hgt
        · left; exact ⟨he, by omega⟩
        · right; exact hgt
    · rw [if_neg hd]
      left; exact ⟨rfl, le_refl m⟩

/-- Strict version: an overflowing day (`d > daysInMonth`) never normalizes
back to the starting month of the starting year. -/
theorem normDays_overflow_moves (fuel : Nat) (y m d : Int) (hfuel : 1 ≤ fuel)
    (hm1 : 0 ≤ m) (hm2 : m ≤ 11) (hd : d > daysInMonth y m) (hd1 : 1 ≤ d) :
    ¬ ((normDays fuel y m d).1 = y ∧ (normDays fuel y m d).2.1 = m) := by
  obtain ⟨n, rfl⟩ : ∃ n, fuel = n + 1 := ⟨fuel - 1, by omega⟩
  rw [normDays]
  rw [if_neg (by omega : ¬ d < 1), if_pos hd]
  by_cases hm : m = 11
  · rw [if_pos hm]
    have hstep := normDays_ge n (y + 1) 0 (d - daysInMonth y m)
      (by have := daysInMonth_bounds y m hm1 hm2; omega) (by omega) (by omega)
    rintro ⟨he, _⟩
    rcases hstep with ⟨he2, _⟩ | hgt <;> omega
  · rw [if_neg hm]
    have hstep := normDays_ge n y (m + 1) (d - daysInMonth y m)
      (by have := daysInMonth_bounds y m hm1 hm2; omega) (by omega) (by omega)
    rintro ⟨he, hme⟩
    rcases hstep with ⟨he2, hge⟩ | hgt <;> omega

/-! ## Date decoder lemmas -/

theorem all_take {s : Str} (q : Char → Bool) (h : s.all q) (n : Nat) : (s.take n).all q := by
  rw [List.all_eq_true] at *
  exact fun c hc => h c (List.mem_of_mem_take hc)

theorem all_drop {s : Str} (q : Char → Bool) (h : s.all q) (n : Nat) : (s.drop n).all q := by
  rw [List.all_eq_true] at *
  exact fun c hc => h c (List.mem_of_mem_drop hc)

/-- `parseDate` on a codestring that starts with the AI followed by a
6-character payload, rewritten in terms of the payload slices. -/
theorem parseDate_append (ai title p rest : Str) (hlen : p.length = 6) :
    parseDate ai title (ai ++ p ++ rest) =
      (let yearRaw := jsParseInt (p.take 2)
       let monthAsNumber := (jsParseInt ((p.take 4).drop 2)).map (· - 1)
       let dayAsNumber := jsParseInt (p.drop 4)
       let yearAsNumber := yearRaw.map (fun y => if y > 50 then y + 1900 else y + 2000)
       if checkValidDate yearAsNumber monthAsNumber dayAsNumber then
         match yearAsNumber, monthAsNumber, dayAsNumber with
         | some y, some mo, some d =>
           .ok ⟨⟨ai, title, .d (jsDateNormalize y (if d = 0 then mo + 1 else mo) d), p, []⟩, rest⟩
         | _, _, _ => .error (.barcodeError .InvalidDate ['3', '6'])
       else .error (.barcodeError .InvalidDate ['3', '6'])) := by
  have hslice : jsSlice (ai ++ p ++ rest) (ai.length : Int) ((ai.length : Int) + 6) = p := by
    rw [List.append_assoc]
    have h6 : ((6 : Int)) = ((6 : Nat) : Int) := rfl
    rw [h6]
    rw [jsSlice_pre ai (p ++ rest) 6, ← hlen, List.take_left]
  have hrest : jsSliceFrom (ai ++ p ++ rest) ((ai.length : Int) + 6) = rest := by
    have h1 : ((ai.length : Int) + 6) = (((ai ++ p).length : Nat) : Int) := by
      rw [List.length_append, hlen]
      push_cast
      ring
    rw [h1, jsSliceFrom_pre (ai ++ p) rest]
  have h02 : jsSlice p (0 : Int) (2 : Int) = p.take 2 := by
    have := jsSlice_nat p 0 2
    simpa using this
  have h24 : jsSlice p (2 : Int) (4 : Int) = (p.take 4).drop 2 := by
    have := jsSlice_nat p 2 4
    simpa using this
  have h46 : jsSlice p (4 : Int) (6 : Int) = p.drop 4 := by
    have h := jsSlice_nat p 4 6
    have h6 : (((6 : Nat)) : Int) = ((6 : Int)) := rfl
    have h4 : (((4 : Nat)) : Int) = ((4 : Int)) := rfl
    rw [h6, h4] at h
    rw [h, ← hlen, List.take_length]
  simp only [parseDate, hslice, hrest, h02, h24, h46]

def dateAIs : List Str := [str "11", str "12", str "13", str "15", str "16", str "17"]

/-- The resolved full year of a two-digit year per GS1 §7.12 as implemented. -/
def centuryOf (yy : Int) : Int := if yy > 50 then yy + 1900 else yy + 2000

theorem checkValidDate_some {y mo d : Int}
    (h : checkValidDate (some y) (some mo) (some d) = true) :
    (jsDateNormalize y (if d = 0 then mo + 1 else mo) d).1 = y ∧
    (jsDateNormalize y (if d = 0 then mo + 1 else mo) d).2.1 = mo ∧
    ((jsDateNormalize y (if d = 0 then mo + 1 else mo) d).2.2 = d ∨ d = 0) ∧
    0 ≤ mo ∧ mo ≤ 11 := by
  unfold checkValidDate at h
  simp only [Bool.and_eq_true, Bool.not_eq_true', Bool.or_eq_false_iff,
    decide_eq_false_iff_not, Bool.or_eq_true, decide_eq_true_eq] at h
  obtain ⟨⟨hge, hle⟩, ⟨ha, hb⟩, hc⟩ := h
  exact ⟨ha, hb, hc, by omega, by omega⟩

theorem checkValidDate_day0 (y mo : Int) (h1 : 0 ≤ mo) (h2 : mo ≤ 11) :
    checkValidDate (some y) (some mo) (some 0) = true := by
  have hnorm := jsDateNormalize_day0 y (mo + 1) (by omega) (by omega)
  rw [show mo + 1 - 1 = mo from by ring] at hnorm
  unfold checkValidDate
  simp [hnorm]
  omega

/-- C5: the century rule.  For any date AI and any all-digit 6-character
payload that `parseDate` accepts, the year of the stored date is
`1900 + YY` for `YY > 50` and `2000 + YY` otherwise; together with the four
boundary instances `00 → 2000`, `49 → 2049`, `50 → 2050`, `99 → 1999`. -/
theorem C5_century_rule :
    (∀ ai ∈ dateAIs, ∀ (title p rest : Str) (r : ParseResult),
      p.length = 6 → p.all Char.isDigit = true →
      parseDate ai title (ai ++ p ++ rest) = .ok r →
      ∃ M D, r.element.data = .d (centuryOf (digitsVal (p.take 2) : Int), M, D)) ∧
    parseDate (str "17") [] (str "17000101") =
      .ok ⟨⟨str "17", [], .d (2000, 0, 1), str "000101", []⟩, []⟩ ∧
    parseDate (str "17") [] (str "17490101") =
      .ok ⟨⟨str "17", [], .d (2049, 0, 1), str "490101", []⟩, []⟩ ∧
    parseDate (str "17") [] (str "17500101") =
      .ok ⟨⟨str "17", [], .d (2050, 0, 1), str "500101", []⟩, []⟩ ∧
    parseDate (str "17") [] (str "17990101") =
      .ok ⟨⟨str "17", [], .d (1999, 0, 1), str "990101", []⟩, []⟩ := by
  refine ⟨?_, rfl, rfl, rfl, rfl⟩
  intro ai _ title p rest r hlen hdig h
  rw [parseDate_append ai title p rest hlen] at h
  have hy := jsParseInt_digits (s := p.take 2)
    (by simp [← List.length_pos, List.length_take, hlen]) (all_take _ hdig 2)
  have hm := jsParseInt_digits (s := (p.take 4).drop 2)
    (by simp [← List.length_pos, List.length_drop, List.length_take, hlen])
    (all_drop _ (all_take _ hdig 4) 2)
  have hd := jsParseInt_digits (s := p.drop 4)
    (by simp [← List.length_pos, List.length_drop, hlen]) (all_drop _ hdig 4)
  simp only [hy, hm, hd, Option.map_some'] at h
  set Y : Int := if (digitsVal (p.take 2) : Int) > 50 then (digitsVal (p.take 2) : Int) + 1900
    else (digitsVal (p.take 2) : Int) + 2000 with hY
  set mo : Int := (digitsVal ((p.take 4).drop 2) : Int) - 1 with hmo
  set dv : Int := (digitsVal (p.drop 4) : Int) with hdv
  cases hcheck : checkValidDate (some Y) (some mo) (some dv) with
  | false => rw [hcheck] at h; simp at h
  | true =>
    rw [hcheck] at h
    simp only [if_true] at h
    obtain ⟨ht1, -, -, -, -⟩ := checkValidDate_some hcheck
    injection h with h2
    refine ⟨(jsDateNormalize Y (if dv = 0 then mo + 1 else mo) dv).2.1,
            (jsDateNormalize Y (if dv = 0 then mo + 1 else mo) dv).2.2, ?_⟩
    rw [← h2]
    have hcent : centuryOf (digitsVal (p.take 2) : Int) = Y := by rw [centuryOf]
    rw [hcent]
    exact congrArg EData.d (Prod.ext ht1 rfl)

/-- C4: the day-zero rule.  For every date AI and all-digit payload
`YYMM00` with a month in 1..12, decoding succeeds and the stored date is the
last day (`daysInMonth`) of the stated month in the resolved year; the three
reference payloads `221200`, `130200` and `160200` (leap year) resolve to
2022-12-31, 2013-02-28 and 2016-02-29. -/
theorem C4_day_zero_rule :
    (∀ ai ∈ dateAIs, ∀ (title rest : Str) (y1 y2 m1 m2 : Char),
      y1.isDigit = true → y2.isDigit = true → m1.isDigit = true → m2.isDigit = true →
      1 ≤ (digitsVal [m1, m2] : Int) → (digitsVal [m1, m2] : Int) ≤ 12 →
      parseDate ai title (ai ++ [y1, y2, m1, m2, '0', '0'] ++ rest) =
        .ok ⟨⟨ai, title,
              .d (centuryOf (digitsVal [y1, y2] : Int),
                  (digitsVal [m1, m2] : Int) - 1,
                  daysInMonth (centuryOf (digitsVal [y1, y2] : Int))
                    ((digitsVal [m1, m2] : Int) - 1)),
              [y1, y2, m1, m2, '0', '0'], []⟩, rest⟩) ∧
    parseDate (str "17") (str "USE BY OR EXPIRY") (str "17221200") =
      .ok ⟨⟨str "17", str "USE BY OR EXPIRY", .d (2022, 11, 31), str "221200", []⟩, []⟩ ∧
    parseDate (str "17") (str "USE BY OR EXPIRY") (str "17130200") =
      .ok ⟨⟨str "17", str "USE BY OR EXPIRY", .d (2013, 1, 28), str "130200", []⟩, []⟩ ∧
    parseDate (str "17") (str "USE BY OR EXPIRY") (str "17160200") =
      .ok ⟨⟨str "17", str "USE BY OR EXPIRY", .d (2016, 1, 29), str "160200", []⟩, []⟩ := by
  refine ⟨?_, rfl, rfl, rfl⟩
  intro ai _ title rest y1 y2 m1 m2 hy1 hy2 hm1 hm2 hlo hhi
  rw [parseDate_append ai title [y1, y2, m1, m2, '0', '0'] rest rfl]
  have ht2 : ([y1, y2, m1, m2, '0', '0'] : Str).take 2 = [y1, y2] := rfl
  have ht4 : (([y1, y2, m1, m2, '0', '0'] : Str).take 4).drop 2 = [m1, m2] := rfl
  have ht6 : ([y1, y2, m1, m2, '0', '0'] : Str).drop 4 = ['0', '0'] := rfl
  rw [ht2, ht4, ht6]
  have hy := jsParseInt_digits (s := [y1, y2]) (by simp) (by simp [hy1, hy2])
  have hm := jsParseInt_digits (s := [m1, m2]) (by simp) (by simp [hm1, hm2])
  have hd0 : jsParseInt ['0', '0'] = some 0 := rfl
  rw [hy, hm, hd0]
  simp only [Option.map_some']
  set Y : Int := if (digitsVal [y1, y2] : Int) > 50 then (digitsVal [y1, y2] : Int) + 1900
    else (digitsVal [y1, y2] : Int) + 2000 with hY
  set mo : Int := (digitsVal [m1, m2] : Int) - 1 with hmo
  rw [checkValidDate_day0 Y mo (by omega) (by omega)]
  simp only [if_true, if_pos rfl]
  have hnorm := jsDateNormalize_day0 Y (mo + 1) (by omega) (by omega)
  rw [show mo + 1 - 1 = mo from by ring] at hnorm
  rw [hnorm]
  have hcent : centuryOf (digitsVal [y1, y2] : Int) = Y := by rw [centuryOf]
  rw [hcent]

theorem checkValidDate_month_none (y d : Option Int) :
    checkValidDate y none d = false := by
  cases y <;> cases d <;> rfl

theorem checkValidDate_month_out {mo : Int} (h : mo < 0 ∨ mo > 11) :
    ∀ y d : Option Int, checkValidDate y (some mo) d = false := by
  intro y d
  cases y <;> cases d <;> (unfold checkValidDate; rcases h with h | h <;> simp [h])

theorem checkValidDate_day_overflow {y mo dv : Int} (hm1 : 0 ≤ mo) (hm2 : mo ≤ 11)
    (hd0 : dv ≠ 0) (hd1 : 1 ≤ dv) (hover : daysInMonth y mo < dv) :
    checkValidDate (some y) (some mo) (some dv) = false := by
  unfold checkValidDate
  have hf : mo.fdiv 12 = 0 := by
    rw [Int.fdiv_eq_ediv _ (by omega : (0:Int) ≤ 12)]
    exact Int.ediv_eq_zero_of_lt (by omega) (by omega)
  have he : mo.emod 12 = mo := Int.emod_eq_of_lt (by omega) (by omega)
  have hmoves := normDays_overflow_moves (dv.natAbs + 13) y mo dv (by omega)
    hm1 hm2 (by omega) hd1
  simp only [if_neg hd0]
  unfold jsDateNormalize
  rw [hf, he, show y + 0 = y from by ring]
  simp only [Bool.and_eq_true, decide_eq_true_eq, Bool.and_eq_false_iff]
  by_cases hA : (normDays (dv.natAbs + 13) y mo dv).1 = y
  · by_cases hB : (normDays (dv.natAbs + 13) y mo dv).2.1 = mo
    · exact absurd ⟨hA, hB⟩ hmoves
    · simp [hA, hB]
  · simp [hA]

/-- C6 (amended): the date decoder raises exactly `InvalidDate` — not a
generic numeric fault — whenever the month digits of a 6-character payload
have no parseable numeric value (`parseInt` yields `NaN`) or yield a month
outside 1..12; and for any all-digit payload with a valid month, a non-zero
day that does not exist in the resolved year and month.  (The original
"non-numeric month digits" wording fails: a digit-prefixed month such as
`1x` is read as its digit prefix — see the counterexample.) -/
theorem C6_invalid_date_classification :
    (∀ ai ∈ dateAIs, ∀ (title p rest : Str),
      p.length = 6 →
      (∀ mv : Int, jsParseInt ((p.take 4).drop 2) = some mv → mv < 1 ∨ 12 < mv) →
      parseDate ai title (ai ++ p ++ rest) =
        .error (.barcodeError .InvalidDate (str "36"))) ∧
    (∀ ai ∈ dateAIs, ∀ (title rest : Str) (y1 y2 m1 m2 d1 d2 : Char),
      y1.isDigit = true → y2.isDigit = true → m1.isDigit = true → m2.isDigit = true →
      d1.isDigit = true → d2.isDigit = true →
      1 ≤ (digitsVal [m1, m2] : Int) → (digitsVal [m1, m2] : Int) ≤ 12 →
      (digitsVal [d1, d2] : Int) ≠ 0 →
      daysInMonth (centuryOf (digitsVal [y1, y2] : Int)) ((digitsVal [m1, m2] : Int) - 1) <
        (digitsVal [d1, d2] : Int) →
      parseDate ai title (ai ++ [y1, y2, m1, m2, d1, d2] ++ rest) =
        .error (.barcodeError .InvalidDate (str "36"))) := by
  constructor
  · intro ai _ title p rest hlen hbad
    rw [parseDate_append ai title p rest hlen]
    cases hm : jsParseInt ((p.take 4).drop 2) with
    | none =>
      simp [checkValidDate_month_none, str]
    | some mv =>
      have hcond : mv - 1 < 0 ∨ mv - 1 > 11 := by have := hbad mv hm; omega
      simp [checkValidDate_month_out hcond, str]
  · intro ai _ title rest y1 y2 m1 m2 d1 d2 hy1 hy2 hm1 hm2 hd1 hd2 hlo hhi hdnz hover
    rw [parseDate_append ai title [y1, y2, m1, m2, d1, d2] rest rfl]
    have ht2 : ([y1, y2, m1, m2, d1, d2] : Str).take 2 = [y1, y2] := rfl
    have ht4 : (([y1, y2, m1, m2, d1, d2] : Str).take 4).drop 2 = [m1, m2] := rfl
    have ht6 : ([y1, y2, m1, m2, d1, d2] : Str).drop 4 = [d1, d2] := rfl
    rw [ht2, ht4, ht6]
    have hy := jsParseInt_digits (s := [y1, y2]) (by simp) (by simp [hy1, hy2])
    have hm := jsParseInt_digits (s := [m1, m2]) (by simp) (by simp [hm1, hm2])
    have hd := jsParseInt_digits (s := [d1, d2]) (by simp) (by simp [hd1, hd2])
    rw [hy, hm, hd]
    simp only [Option.map_some']
    set Y : Int := if (digitsVal [y1, y2] : Int) > 50 then (digitsVal [y1, y2] : Int) + 1900
      else (digitsVal [y1, y2] : Int) + 2000 with hY
    have hcent : centuryOf (digitsVal [y1, y2] : Int) = Y := by rw [centuryOf]
    rw [hcent] at hover
    rw [checkValidDate_day_overflow (by omega) (by omega) hdnz (by omega) hover]
    simp [str]

/-! ## Decode-loop helper lemmas -/

theorem stripSymbology_no_id {barcode : Str} (h : ∀ c ∈ barcode.take 1, c ≠ ']') :
    stripSymbology barcode = ([], barcode) := by
  cases barcode with
  | nil => rfl
  | cons c t =>
    have hc : c ≠ ']' := h c (by simp)
    unfold stripSymbology
    have hsl : jsSlice (c :: t) 0 3 = c :: t.take 2 := by
      have := jsSlice_nat (c :: t) 0 3
      simpa using this
    rw [hsl]
    rw [if_neg (by simp [str]; intro he; exact absurd he hc)]
    rw [if_neg (by simp [str]; intro he; exact absurd he hc)]
    rw [if_neg (by simp [str]; intro he; exact absurd he hc)]
    rw [if_neg (by simp [str]; intro he; exact absurd he hc)]
    rw [if_neg (by simp [str]; intro he; exact absurd he hc)]
    rw [if_neg (by simp [str]; intro he; exact absurd he hc)]

theorem parseLoop_nil (fuel : Nat) (fnc : Char) (lot : Option Nat)
    (acc : List ParsedElement) (denorm : Str) :
    parseLoop fuel [] fnc lot acc denorm = some (.ok (acc, denorm)) := by
  cases fuel <;> rfl

theorem parseLoop_step (fuel : Nat) (rest : Str) (fnc : Char) (lot : Option Nat)
    (acc : List ParsedElement) (denorm : Str) (hne : rest ≠ []) (cur : ParseResult)
    (h : identifyAI rest lot none = .ok cur) :
    parseLoop (fuel + 1) rest fnc lot acc denorm =
      parseLoop fuel (cleanCodestring cur.codestring fnc) fnc lot (acc ++ [cur.element])
        (denorm ++ '(' :: cur.element.ai ++ ')' :: cur.element.dataString) := by
  rw [parseLoop, if_neg hne, h]

theorem parseLoop_step_err (fuel : Nat) (rest : Str) (fnc : Char) (lot : Option Nat)
    (acc : List ParsedElement) (denorm : Str) (hne : rest ≠ []) (e : BError)
    (h : identifyAI rest lot none = .error e) :
    parseLoop (fuel + 1) rest fnc lot acc denorm = some (.error e) := by
  rw [parseLoop, if_neg hne, h]

theorem parseBarcode_of_loop (barcode : Str) (fnc : Char) (lot : Option Nat)
    (hne : barcode ≠ []) (hsym : ∀ c ∈ barcode.take 1, c ≠ ']')
    (items : List ParsedElement) (denorm : Str)
    (hloop : parseLoop barcode.length barcode fnc lot [] [] = some (.ok (items, denorm))) :
    parseBarcode barcode fnc lot = .ok ⟨[], denorm, items⟩ := by
  unfold parseBarcode
  rw [if_neg hne, stripSymbology_no_id hsym]
  simp [hloop]

theorem parseBarcode_of_loop_err (barcode : Str) (fnc : Char) (lot : Option Nat)
    (hne : barcode ≠ []) (hsym : ∀ c ∈ barcode.take 1, c ≠ ']') (e : BError)
    (hloop : parseLoop barcode.length barcode fnc lot [] [] = some (.error e)) :
    parseBarcode barcode fnc lot = .error e := by
  unfold parseBarcode
  rw [if_neg hne, stripSymbology_no_id hsym]
  simp [hloop]

/-- C10 (amended): the variable-length measure decoders perform no numeric
validation — decode succeeds on any terminator-free payload, digits or not —
but the stored value is `parseFloat` of the decimal-inserted payload, which
is the parsed digit prefix (not `NaN`) when the payload starts with digits;
`NaN` (`none`) arises exactly when that string has no parseable prefix.
Stated for every AI 390x/392x (direct measure) and 391x/393x (ISO-prefixed),
any fourth character and any payload containing a non-digit. -/
theorem C10_measure_decoders_skip_numeric_validation :
    (∀ (c3 d4 : Char) (p : Str) (lot : Option Nat),
      (c3 = '0' ∨ c3 = '2') → d4 ≠ GROUP_SEPARATOR → GROUP_SEPARATOR ∉ p →
      (∃ c ∈ p, c.isDigit = false) →
      parseBarcode ('3' :: '9' :: c3 :: d4 :: p) GROUP_SEPARATOR lot =
        .ok ⟨[], '(' :: '3' :: '9' :: c3 :: d4 :: ')' :: p,
             [⟨'3' :: '9' :: c3 :: [d4], (if c3 = '0' then str "AMOUNT" else str "PRICE"),
               .n (parseFloatingPoint p (jsParseInt [d4])), p, []⟩]⟩) ∧
    (∀ (c3 d4 : Char) (p : Str) (lot : Option Nat),
      (c3 = '1' ∨ c3 = '3') → d4 ≠ GROUP_SEPARATOR → GROUP_SEPARATOR ∉ p →
      (∃ c ∈ p, c.isDigit = false) →
      parseBarcode ('3' :: '9' :: c3 :: d4 :: p) GROUP_SEPARATOR lot =
        .ok ⟨[], '(' :: '3' :: '9' :: c3 :: d4 :: ')' :: jsSliceFrom p 3,
             [⟨'3' :: '9' :: c3 :: [d4], (if c3 = '1' then str "AMOUNT" else str "PRICE"),
               .n (parseFloatingPoint (jsSliceFrom p 3) (jsParseInt [d4])),
               jsSliceFrom p 3, jsSlice p 0 3⟩]⟩) := by
  have hno : ∀ (c3 d4 : Char) (p : Str), d4 ≠ GROUP_SEPARATOR → GROUP_SEPARATOR ∉ p →
      c3 ≠ GROUP_SEPARATOR →
      jsIndexOfChar ('3' :: '9' :: c3 :: d4 :: p) GROUP_SEPARATOR = none := by
    intro c3 d4 p hd4 hp hc3
    rw [jsIndexOfChar_none_iff]
    intro hmem
    simp only [List.mem_cons] at hmem
    rcases hmem with h | h | h | h | h
    · exact absurd h.symm (by decide)
    · exact absurd h.symm (by decide)
    · exact absurd h.symm hc3
    · exact absurd h.symm hd4
    · exact hp h
  have hfrom4 : ∀ (c3 d4 : Char) (p : Str),
      jsSliceFrom ('3' :: '9' :: c3 :: d4 :: p) (4 : Int) = p := by
    intro c3 d4 p
    have := jsSliceFrom_pre ['3', '9', c3, d4] p
    simpa using this
  have hsingle : ∀ (barcode : Str) (fnc : Char) (lot : Option Nat) (cur : ParseResult),
      barcode ≠ [] → (∀ c ∈ barcode.take 1, c ≠ ']') →
      identifyAI barcode lot none = .ok cur →
      cur.codestring = [] →
      parseBarcode barcode fnc lot =
        .ok ⟨[], '(' :: cur.element.ai ++ ')' :: cur.element.dataString, [cur.element]⟩ := by
    intro barcode fnc lot cur hne hsym hid hcs
    have hstep : parseLoop barcode.length barcode fnc lot [] [] =
        some (.ok ([cur.element], '(' :: cur.element.ai ++ ')' :: cur.element.dataString)) := by
      obtain ⟨n, hn⟩ : ∃ n, barcode.length = n + 1 := by
        cases barcode with
        | nil => exact absurd rfl hne
        | cons c t => exact ⟨t.length, by simp⟩
      rw [hn, parseLoop_step n barcode fnc lot [] [] hne cur hid, hcs, cleanCodestring_nil,
        parseLoop_nil]
      simp
    unfold parseBarcode
    rw [if_neg hne, stripSymbology_no_id hsym]
    simp [hstep]
  constructor
  · intro c3 d4 p lot hc3 hd4 hp _
    rcases hc3 with h | h <;> subst h
    · have hid : identifyAI ('3' :: '9' :: '0' :: d4 :: p) lot none =
          .ok ⟨⟨'3' :: '9' :: '0' :: [d4], str "AMOUNT",
                .n (parseFloatingPoint p (jsParseInt [d4])), p, []⟩, []⟩ := by
        show parseVariableLengthMeasure (str "390") ((d4 :: p).take 1) (str "AMOUNT") []
            ('3' :: '9' :: '0' :: d4 :: p) (Option.getD none GROUP_SEPARATOR) = _
        unfold parseVariableLengthMeasure
        rw [show ((d4 :: p).take 1) = [d4] from rfl]
        rw [show (none : Option Char).getD GROUP_SEPARATOR = GROUP_SEPARATOR from rfl]
        rw [hno '0' d4 p hd4 hp (by decide)]
        rw [show ((List.length (str "390") : Int) + 1) = (4 : Int) from rfl]
        simp [hfrom4, str]
      exact hsingle _ _ _ _ (by simp) (by intro c hc; simp at hc; rw [hc]; decide) hid rfl
    · have hid : identifyAI ('3' :: '9' :: '2' :: d4 :: p) lot none =
          .ok ⟨⟨'3' :: '9' :: '2' :: [d4], str "PRICE",
                .n (parseFloatingPoint p (jsParseInt [d4])), p, []⟩, []⟩ := by
        show parseVariableLengthMeasure (str "392") ((d4 :: p).take 1) (str "PRICE") []
            ('3' :: '9' :: '2' :: d4 :: p) (Option.getD none GROUP_SEPARATOR) = _
        unfold parseVariableLengthMeasure
        rw [show ((d4 :: p).take 1) = [d4] from rfl]
        rw [show (none : Option Char).getD GROUP_SEPARATOR = GROUP_SEPARATOR from rfl]
        rw [hno '2' d4 p hd4 hp (by decide)]
        rw [show ((List.length (str "392") : Int) + 1) = (4 : Int) from rfl]
        simp [hfrom4, str]
      exact hsingle _ _ _ _ (by simp) (by intro c hc; simp at hc; rw [hc]; decide) hid rfl
  · intro c3 d4 p lot hc3 hd4 hp _
    rcases hc3 with h | h <;> subst h
    · have hid : identifyAI ('3' :: '9' :: '1' :: d4 :: p) lot none =
          .ok ⟨⟨'3' :: '9' :: '1' :: [d4], str "AMOUNT",
                .n (parseFloatingPoint (jsSliceFrom p 3) (jsParseInt [d4])),
                jsSliceFrom p 3, jsSlice p 0 3⟩, []⟩ := by
        show parseVariableLengthWithISONumbers (str "391") ((d4 :: p).take 1) (str "AMOUNT")
            ('3' :: '9' :: '1' :: d4 :: p) (Option.getD none GROUP_SEPARATOR) = _
        unfold parseVariableLengthWithISONumbers
        rw [show ((d4 :: p).take 1) = [d4] from rfl]
        rw [show (none : Option Char).getD GROUP_SEPARATOR = GROUP_SEPARATOR from rfl]
        rw [hno '1' d4 p hd4 hp (by decide)]
        rw [show ((List.length (str "391") : Int) + 1) = (4 : Int) from rfl]
        simp [hfrom4, str]
      exact hsingle _ _ _ _ (by simp) (by intro c hc; simp at hc; rw [hc]; decide) hid rfl
    · have hid : identifyAI ('3' :: '9' :: '3' :: d4 :: p) lot none =
          .ok ⟨⟨'3' :: '9' :: '3' :: [d4], str "PRICE",
                .n (parseFloatingPoint (jsSliceFrom p 3) (jsParseInt [d4])),
                jsSliceFrom p 3, jsSlice p 0 3⟩, []⟩ := by
        show parseVariableLengthWithISONumbers (str "393") ((d4 :: p).take 1) (str "PRICE")
            ('3' :: '9' :: '3' :: d4 :: p) (Option.getD none GROUP_SEPARATOR) = _
        unfold parseVariableLengthWithISONumbers
        rw [show ((d4 :: p).take 1) = [d4] from rfl]
        rw [show (none : Option Char).getD GROUP_SEPARATOR = GROUP_SEPARATOR from rfl]
        rw [hno '3' d4 p hd4 hp (by decide)]
        rw [show ((List.length (str "393") : Int) + 1) = (4 : Int) from rfl]
        simp [hfrom4, str]
      exact hsingle _ _ _ _ (by simp) (by intro c hc; simp at hc; rw [hc]; decide) hid rfl

theorem drop_append_len (a b : Str) (k : Nat) : (a ++ b).drop (a.length + k) = b.drop k := by
  induction a with
  | nil => simp
  | cons c t ih =>
    have h : t.length + 1 + k = (t.length + k) + 1 := by omega
    simp only [List.cons_append, List.length_cons, h, List.drop_succ_cons]
    exact ih

/-! ## Replay lemmas for the variable-length decoder -/

theorem parseVariableLength_found (ai title : Str) (fnc : Char) (d tail : Str)
    (ml : Option Nat) (num : Bool) (hfa : fnc ∉ ai) (hfd : fnc ∉ d) (hdne : d ≠ [])
    (hnum : num = true → numericTest d = true) :
    parseVariableLength ai title (ai ++ d ++ fnc :: tail) fnc ml num =
      .ok ⟨⟨ai, title, .s d, d, []⟩, tail⟩ := by
  have hidx : jsIndexOfChar (ai ++ d ++ fnc :: tail) fnc = some (ai.length + d.length) := by
    have h := jsIndexOfChar_found (c := fnc) (a := ai ++ d) tail
      (by simp only [List.mem_append, not_or]; exact ⟨hfa, hfd⟩)
    simpa using h
  have hdata : jsSlice (ai ++ d ++ fnc :: tail) (ai.length : Int)
      ((ai.length + d.length : Nat) : Int) = d := by
    rw [jsSlice_nat]
    rw [show ai.length + d.length = (ai ++ d).length from by simp]
    rw [List.take_left, List.drop_left]
  have hret : jsSliceFrom (ai ++ d ++ fnc :: tail)
      (((ai.length + d.length : Nat) : Int) + 1) = tail := by
    have h1 : (((ai.length + d.length : Nat) : Int) + 1) =
        (((ai.length + d.length + 1 : Nat)) : Int) := by push_cast; ring
    rw [h1, jsSliceFrom_nat]
    rw [show ai.length + d.length + 1 = (ai ++ d).length + 1 from by simp]
    rw [drop_append_len (ai ++ d) (fnc :: tail) 1]
    rfl
  unfold parseVariableLength
  simp only [hidx, hdata, hret]
  rw [if_neg hdne]
  cases num with
  | false => rfl
  | true =>
    rw [hnum rfl]
    rfl

theorem parseVariableLength_nofnc_cap (ai title : Str) (fnc : Char) (d : Str)
    (ml : Nat) (num : Bool) (hfa : fnc ∉ ai) (hfd : fnc ∉ d) (hml : 0 < ml)
    (hcap : d.length ≤ ml) (hdne : d ≠ []) (hnum : num = true → numericTest d = true) :
    parseVariableLength ai title (ai ++ d) fnc (some ml) num =
      .ok ⟨⟨ai, title, .s d, d, []⟩, []⟩ := by
  have hidx : jsIndexOfChar (ai ++ d) fnc = none := by
    rw [jsIndexOfChar_none_iff]
    simp only [List.mem_append, not_or]
    exact ⟨hfa, hfd⟩
  have hdata : jsSlice (ai ++ d) (ai.length : Int) ((ml : Int) + (ai.length : Int)) = d := by
    have h1 : ((ml : Int) + (ai.length : Int)) = ((ml + ai.length : Nat) : Int) := by
      push_cast; ring
    rw [h1, jsSlice_nat]
    rw [List.take_of_length_le (by simp; omega), List.drop_left]
  have hrepl : jsReplaceFirst (ai ++ d) (ai ++ d) = [] := by
    rw [jsReplaceFirst_pre (by rw [List.take_length])]
    rw [List.drop_length]
  unfold parseVariableLength
  simp only [hidx, hml, if_true, hdata, hrepl]
  rw [if_neg hdne]
  cases num with
  | false => rfl
  | true =>
    rw [hnum rfl]
    rfl

theorem parseVariableLength_nofnc_nocap (ai title : Str) (fnc : Char) (d : Str)
    (num : Bool) (hfa : fnc ∉ ai) (hfd : fnc ∉ d) (hdne : d ≠ [])
    (hnum : num = true → numericTest d = true) :
    parseVariableLength ai title (ai ++ d) fnc none num =
      .ok ⟨⟨ai, title, .s d, d, []⟩, []⟩ := by
  have hidx : jsIndexOfChar (ai ++ d) fnc = none := by
    rw [jsIndexOfChar_none_iff]
    simp only [List.mem_append, not_or]
    exact ⟨hfa, hfd⟩
  have hdata : jsSliceFrom (ai ++ d) (ai.length : Int) = d := jsSliceFrom_pre ai d
  unfold parseVariableLength
  simp only [hidx, hdata]
  rw [if_neg hdne]
  cases num with
  | false => rfl
  | true =>
    rw [hnum rfl]
    rfl

/-- C8 (amended): a stray double terminator between elements is tolerated,
not rejected — `cleanCodestring` strips every leading terminator after an
element, so for any nonempty terminator-free payloads the input
`10<p1><GS><GS>10<p2>` decodes to the two expected elements.
`EmptyVariableLengthData` arises only when a terminator (or the end of
input) immediately follows a variable-length AI stem, as in C7. -/
theorem C8_double_terminator_skipped :
    ∀ (p1 p2 : Str),
      p1 ≠ [] → p2 ≠ [] → GROUP_SEPARATOR ∉ p1 → GROUP_SEPARATOR ∉ p2 →
      p2.length ≤ 20 →
      parseBarcode ('1' :: '0' :: p1 ++ GROUP_SEPARATOR :: GROUP_SEPARATOR :: '1' :: '0' :: p2)
          GROUP_SEPARATOR none =
        .ok ⟨[], '(' :: '1' :: '0' :: ')' :: p1 ++ '(' :: '1' :: '0' :: ')' :: p2,
             [⟨str "10", str "BATCH/LOT", .s p1, p1, []⟩,
              ⟨str "10", str "BATCH/LOT", .s p2, p2, []⟩]⟩ := by
  intro p1 p2 h1ne h2ne hf1 hf2 hcap
  have hid1 : identifyAI ('1' :: '0' :: p1 ++ GROUP_SEPARATOR :: GROUP_SEPARATOR :: '1' :: '0' :: p2)
      none none =
      .ok ⟨⟨str "10", str "BATCH/LOT", .s p1, p1, []⟩, GROUP_SEPARATOR :: '1' :: '0' :: p2⟩ := by
    show parseVariableLength (str "10") (str "BATCH/LOT")
        ('1' :: '0' :: p1 ++ GROUP_SEPARATOR :: GROUP_SEPARATOR :: '1' :: '0' :: p2)
        (Option.getD none GROUP_SEPARATOR) (some (Option.getD none 20)) = _
    rw [show (Option.getD none GROUP_SEPARATOR) = GROUP_SEPARATOR from rfl]
    rw [show (Option.getD (none : Option Nat) 20) = 20 from rfl]
    have h := parseVariableLength_found (str "10") (str "BATCH/LOT") GROUP_SEPARATOR p1
      (GROUP_SEPARATOR :: '1' :: '0' :: p2) (some 20) false (by decide) hf1 h1ne
      (by intro hcon; exact absurd hcon (by decide))
    simpa using h
  have hid2 : identifyAI ('1' :: '0' :: p2) none none =
      .ok ⟨⟨str "10", str "BATCH/LOT", .s p2, p2, []⟩, []⟩ := by
    show parseVariableLength (str "10") (str "BATCH/LOT") ('1' :: '0' :: p2)
        (Option.getD none GROUP_SEPARATOR) (some (Option.getD none 20)) = _
    rw [show (Option.getD none GROUP_SEPARATOR) = GROUP_SEPARATOR from rfl]
    rw [show (Option.getD (none : Option Nat) 20) = 20 from rfl]
    have h := parseVariableLength_nofnc_cap (str "10") (str "BATCH/LOT") GROUP_SEPARATOR p2
      20 false (by decide) hf2 (by omega) hcap h2ne
      (by intro hcon; exact absurd hcon (by decide))
    simpa using h
  have hclean : cleanCodestring (GROUP_SEPARATOR :: '1' :: '0' :: p2) GROUP_SEPARATOR =
      '1' :: '0' :: p2 := by
    rw [cleanCodestring_cons_fnc]
    exact cleanCodestring_of_head_ne _ _ (by intro c hc; simp at hc; rw [hc]; decide)
  have hlen : ('1' :: '0' :: p1 ++ GROUP_SEPARATOR :: GROUP_SEPARATOR :: '1' :: '0' :: p2).length =
      (p1.length + p2.length + 5) + 1 := by simp; omega
  have hloopval : parseLoop
      ('1' :: '0' :: p1 ++ GROUP_SEPARATOR :: GROUP_SEPARATOR :: '1' :: '0' :: p2).length
      ('1' :: '0' :: p1 ++ GROUP_SEPARATOR :: GROUP_SEPARATOR :: '1' :: '0' :: p2)
      GROUP_SEPARATOR none [] [] =
      some (.ok ([⟨str "10", str "BATCH/LOT", .s p1, p1, []⟩,
                  ⟨str "10", str "BATCH/LOT", .s p2, p2, []⟩],
                 '(' :: '1' :: '0' :: ')' :: p1 ++ '(' :: '1' :: '0' :: ')' :: p2)) := by
    rw [hlen]
    rw [parseLoop_step _ _ _ _ _ _ (by simp) _ hid1]
    simp only [hclean]
    obtain ⟨n, hn⟩ : ∃ n, p1.length + p2.length + 5 = n + 1 := ⟨p1.length + p2.length + 4, by omega⟩
    rw [hn, parseLoop_step _ _ _ _ _ _ (by simp) _ hid2]
    rw [cleanCodestring_nil, parseLoop_nil]
    simp [str]
  exact parseBarcode_of_loop _ _ _ (by simp)
    (by intro c hc; simp at hc; rw [hc]; decide) _ _ hloopval

/-! ## Strict consumption (termination) lemmas -/

theorem jsIndex_pos (n : Nat) (k : Int) (hk : 1 ≤ k) (hn : 0 < n) : 0 < jsIndex n k := by
  unfold jsIndex
  rw [if_neg (by omega)]
  have : 1 ≤ k.toNat := by omega
  omega

theorem jsSliceFrom_length_lt (cs : Str) (k : Int) (hk : 1 ≤ k) (hcs : cs ≠ []) :
    (jsSliceFrom cs k).length < cs.length := by
  unfold jsSliceFrom
  rw [List.length_drop]
  have h1 : 0 < jsIndex cs.length k := jsIndex_pos _ _ hk (by cases cs; exact absurd rfl hcs; simp)
  have h3 : 0 < cs.length := by cases cs; exact absurd rfl hcs; simp
  omega

theorem parseFixedLength_shrink {ai t : Str} {L : Nat} {cs : Str} {num : Bool} {r : ParseResult}
    (h : parseFixedLength ai t L cs num = .ok r) (hcs : cs ≠ []) (hL : 0 < L) :
    r.codestring.length < cs.length := by
  unfold parseFixedLength at h
  simp only [] at h
  split_ifs at h
  injection h with h2
  rw [← h2]
  exact jsSliceFrom_length_lt cs _ (by omega) hcs

theorem parseDate_shrink {ai t cs : Str} {r : ParseResult}
    (h : parseDate ai t cs = .ok r) (hcs : cs ≠ []) :
    r.codestring.length < cs.length := by
  unfold parseDate at h
  simp only [] at h
  split_ifs at h
  case pos =>
    split at h
    all_goals first
      | (injection h with h2
         rw [← h2]
         exact jsSliceFrom_length_lt cs _ (by omega) hcs)
      | exact absurd h (by simp)

theorem parseFixedLengthMeasure_shrink {stem f t u cs : Str} {r : ParseResult}
    (h : parseFixedLengthMeasure stem f t u cs = .ok r) (hcs : cs ≠ []) :
    r.codestring.length < cs.length := by
  unfold parseFixedLengthMeasure at h
  simp only [] at h
  split_ifs at h
  injection h with h2
  rw [← h2]
  exact jsSliceFrom_length_lt cs _ (by omega) hcs

theorem parseVariableLengthMeasure_shrink {stem f t u cs : Str} {fnc : Char} {r : ParseResult}
    (h : parseVariableLengthMeasure stem f t u cs fnc = .ok r) (hcs : cs ≠ []) :
    r.codestring.length < cs.length := by
  have hcs0 : 0 < cs.length := by cases cs; exact absurd rfl hcs; simp
  unfold parseVariableLengthMeasure at h
  cases hp : jsIndexOfChar cs fnc with
  | none =>
    simp only [hp] at h
    injection h with h2
    rw [← h2]
    simpa using hcs0
  | some pos =>
    simp only [hp] at h
    injection h with h2
    rw [← h2]
    exact jsSliceFrom_length_lt cs _ (by omega) hcs

theorem parseVariableLengthWithISONumbers_shrink {stem f t cs : Str} {fnc : Char}
    {r : ParseResult} (h : parseVariableLengthWithISONumbers stem f t cs fnc = .ok r)
    (hcs : cs ≠ []) : r.codestring.length < cs.length := by
  have hcs0 : 0 < cs.length := by cases cs; exact absurd rfl hcs; simp
  unfold parseVariableLengthWithISONumbers at h
  cases hp : jsIndexOfChar cs fnc with
  | none =>
    simp only [hp] at h
    injection h with h2
    rw [← h2]
    simpa using hcs0
  | some pos =>
    simp only [hp] at h
    injection h with h2
    rw [← h2]
    exact jsSliceFrom_length_lt cs _ (by omega) hcs

theorem parseVariableLengthWithISOChars_shrink {stem t cs : Str} {fnc : Char}
    {r : ParseResult} (h : parseVariableLengthWithISOChars stem t cs fnc = .ok r)
    (hcs : cs ≠ []) : r.codestring.length < cs.length := by
  have hcs0 : 0 < cs.length := by cases cs; exact absurd rfl hcs; simp
  unfold parseVariableLengthWithISOChars at h
  cases hp : jsIndexOfChar cs fnc with
  | none =>
    simp only [hp] at h
    injection h with h2
    rw [← h2]
    simpa using hcs0
  | some pos =>
    simp only [hp] at h
    injection h with h2
    rw [← h2]
    exact jsSliceFrom_length_lt cs _ (by omega) hcs

theorem parseVariableLength_shrink {ai t cs : Str} {fnc : Char} {ml : Option Nat}
    {num : Bool} {r : ParseResult} (h : parseVariableLength ai t cs fnc ml num = .ok r)
    (hcs : cs ≠ []) (hpre : cs.take ai.length = ai) (hai : ai ≠ []) :
    r.codestring.length < cs.length := by
  have hcs0 : 0 < cs.length := by cases cs; exact absurd rfl hcs; simp
  have hai0 : 0 < ai.length := by cases ai; exact absurd rfl hai; simp
  unfold parseVariableLength at h
  cases hp : jsIndexOfChar cs fnc with
  | some pos =>
    simp only [hp] at h
    split_ifs at h
    injection h with h2
    rw [← h2]
    exact jsSliceFrom_length_lt cs _ (by omega) hcs
  | none =>
    simp only [hp] at h
    cases ml with
    | none =>
      simp only [] at h
      split_ifs at h
      injection h with h2
      rw [← h2]
      simpa using hcs0
    | some m =>
      by_cases hm : m > 0
      · simp only [if_pos hm] at h
        split_ifs at h
        injection h with h2
        rw [← h2]
        have hT : ai ++ (cs.take (m + ai.length)).drop ai.length = cs.take (m + ai.length) := by
          have t1 : (cs.take (m + ai.length)).take ai.length = ai := by
            rw [List.take_take, min_eq_left (by omega), hpre]
          calc ai ++ (cs.take (m + ai.length)).drop ai.length
              = (cs.take (m + ai.length)).take ai.length ++
                  (cs.take (m + ai.length)).drop ai.length := by rw [t1]
            _ = cs.take (m + ai.length) := List.take_append_drop _ _
        have hslice : jsSlice cs (ai.length : Int) ((m : Int) + (ai.length : Int)) =
            (cs.take (m + ai.length)).drop ai.length := by
          have h1 : ((m : Int) + (ai.length : Int)) = ((m + ai.length : Nat) : Int) := by
            push_cast; ring
          rw [h1, jsSlice_nat]
        rw [hslice, hT]
        rw [jsReplaceFirst_pre (by rw [List.length_take, take_min_length])]
        rw [List.length_drop, List.length_take]
        omega
      · simp only [if_neg hm] at h
        split_ifs at h
        injection h with h2
        rw [← h2]
        simpa using hcs0

/-- Variant of the shrink lemma for `parseVariableLength` with no `maxLength`:
here the returned codestring is `[]` (no terminator found) or the slice after
the terminator, so no prefix hypothesis is needed — which matters for AI 8200,
whose dispatch consumes only `"820"`. -/
theorem parseVariableLength_shrink_nocap {ai t cs : Str} {fnc : Char}
    {num : Bool} {r : ParseResult} (h : parseVariableLength ai t cs fnc none num = .ok r)
    (hcs : cs ≠ []) : r.codestring.length < cs.length := by
  have hcs0 : 0 < cs.length := by cases cs; exact absurd rfl hcs; simp
  unfold parseVariableLength at h
  cases hp : jsIndexOfChar cs fnc with
  | some pos =>
    simp only [hp] at h
    split_ifs at h
    injection h with h2
    rw [← h2]
    exact jsSliceFrom_length_lt cs _ (by omega) hcs
  | none =>
    simp only [hp] at h
    split_ifs at h
    injection h with h2
    rw [← h2]
    simpa using hcs0

theorem identifyAI0_shrink (rest : Str) (lot : Option Nat) (fncO : Option Char)
    (r : ParseResult) (h : identifyAI0 rest lot fncO = .ok r) :
    r.codestring.length < 1 + rest.length := by
  unfold identifyAI0 at h
  repeat' split at h
  · exact Except.noConfusion h
  · have hs := parseFixedLength_shrink h (List.cons_ne_nil _ _) (by decide)
    simp only [List.length_cons] at hs ⊢
    omega
  · have hs := parseFixedLength_shrink h (List.cons_ne_nil _ _) (by decide)
    simp only [List.length_cons] at hs ⊢
    omega
  · have hs := parseFixedLength_shrink h (List.cons_ne_nil _ _) (by decide)
    simp only [List.length_cons] at hs ⊢
    omega
  · have hs := parseFixedLength_shrink h (List.cons_ne_nil _ _) (by decide)
    simp only [List.length_cons] at hs ⊢
    omega
  · exact Except.noConfusion h

theorem identifyAI1_shrink (rest : Str) (lot : Option Nat) (fncO : Option Char)
    (r : ParseResult) (h : identifyAI1 rest lot fncO = .ok r) :
    r.codestring.length < 1 + rest.length := by
  unfold identifyAI1 at h
  repeat' split at h
  · exact Except.noConfusion h
  · have hs := parseVariableLength_shrink h (List.cons_ne_nil _ _) rfl (List.cons_ne_nil _ _)
    simp only [List.length_cons] at hs ⊢
    omega
  · have hs := parseDate_shrink h (List.cons_ne_nil _ _)
    simp only [List.length_cons] at hs ⊢
    omega
  · have hs := parseDate_shrink h (List.cons_ne_nil _ _)
    simp only [List.length_cons] at hs ⊢
    omega
  · have hs := parseDate_shrink h (List.cons_ne_nil _ _)
    simp only [List.length_cons] at hs ⊢
    omega
  · have hs := parseDate_shrink h (List.cons_ne_nil _ _)
    simp only [List.length_cons] at hs ⊢
    omega
  · have hs := parseDate_shrink h (List.cons_ne_nil _ _)
    simp only [List.length_cons] at hs ⊢
    omega
  · have hs := parseDate_shrink h (List.cons_ne_nil _ _)
    simp only [List.length_cons] at hs ⊢
    omega
  · exact Except.noConfusion h

theorem identifyAI23_shrink (rest : Str) (lot : Option Nat) (fncO : Option Char)
    (r : ParseResult) (h : identifyAI23 rest lot fncO = .ok r) :
    r.codestring.length < 2 + rest.length := by
  unfold identifyAI23 at h
  repeat' split at h
  · exact Except.noConfusion h
  · have hs := parseVariableLength_shrink h (List.cons_ne_nil _ _) rfl (List.cons_ne_nil _ _)
    simp only [List.length_cons] at hs ⊢
    omega
  · exact Except.noConfusion h

theorem identifyAI24_shrink (rest : Str) (lot : Option Nat) (fncO : Option Char)
    (r : ParseResult) (h : identifyAI24 rest lot fncO = .ok r) :
    r.codestring.length < 2 + rest.length := by
  unfold identifyAI24 at h
  repeat' split at h
  · exact Except.noConfusion h
  · have hs := parseVariableLength_shrink h (List.cons_ne_nil _ _) rfl (List.cons_ne_nil _ _)
    simp only [List.length_cons] at hs ⊢
    omega
  · have hs := parseVariableLength_shrink h (List.cons_ne_nil _ _) rfl (List.cons_ne_nil _ _)
    simp only [List.length_cons] at hs ⊢
    omega
  · have hs := parseVariableLength_shrink h (List.cons_ne_nil _ _) rfl (List.cons_ne_nil _ _)
    simp only [List.length_cons] at hs ⊢
    omega
  · have hs := parseVariableLength_shrink h (List.cons_ne_nil _ _) rfl (List.cons_ne_nil _ _)
    simp only [List.length_cons] at hs ⊢
    omega
  · exact Except.noConfusion h

theorem identifyAI25_shrink (rest : Str) (lot : Option Nat) (fncO : Option Char)
    (r : ParseResult) (h : identifyAI25 rest lot fncO = .ok r) :
    r.codestring.length < 2 + rest.length := by
  unfold identifyAI25 at h
  repeat' split at h
  · exact Except.noConfusion h
  · have hs := parseVariableLength_shrink h (List.cons_ne_nil _ _) rfl (List.cons_ne_nil _ _)
    simp only [List.length_cons] at hs ⊢
    omega
  · have hs := parseVariableLength_shrink h (List.cons_ne_nil _ _) rfl (List.cons_ne_nil _ _)
    simp only [List.length_cons] at hs ⊢
    omega
  · have hs := parseVariableLength_shrink h (List.cons_ne_nil _ _) rfl (List.cons_ne_nil _ _)
    simp only [List.length_cons] at hs ⊢
    omega
  · have hs := parseVariableLength_shrink h (List.cons_ne_nil _ _) rfl (List.cons_ne_nil _ _)
    simp only [List.length_cons] at hs ⊢
    omega
  · have hs := parseVariableLength_shrink h (List.cons_ne_nil _ _) rfl (List.cons_ne_nil _ _)
    simp only [List.length_cons] at hs ⊢
    omega
  · exact Except.noConfusion h

theorem identifyAI2_shrink (rest : Str) (lot : Option Nat) (fncO : Option Char)
    (r : ParseResult) (h : identifyAI2 rest lot fncO = .ok r) :
    r.codestring.length < 1 + rest.length := by
  unfold identifyAI2 at h
  repeat' split at h
  · exact Except.noConfusion h
  · have hs := parseFixedLength_shrink h (List.cons_ne_nil _ _) (by decide)
    simp only [List.length_cons] at hs ⊢
    omega
  · have hs := parseVariableLength_shrink h (List.cons_ne_nil _ _) rfl (List.cons_ne_nil _ _)
    simp only [List.length_cons] at hs ⊢
    omega
  · have hs := parseVariableLength_shrink h (List.cons_ne_nil _ _) rfl (List.cons_ne_nil _ _)
    simp only [List.length_cons] at hs ⊢
    omega
  · have hs := identifyAI23_shrink _ _ _ _ h
    simp only [List.length_cons] at hs ⊢
    omega
  · have hs := identifyAI24_shrink _ _ _ _ h
    simp only [List.length_cons] at hs ⊢
    omega
  · have hs := identifyAI25_shrink _ _ _ _ h
    simp only [List.length_cons] at hs ⊢
    omega
  · exact Except.noConfusion h

theorem identifyAI31_shrink (rest : Str) (lot : Option Nat) (fncO : Option Char)
    (r : ParseResult) (h : identifyAI31 rest lot fncO = .ok r) :
    r.codestring.length < 2 + rest.length := by
  unfold identifyAI31 at h
  repeat' split at h
  · exact Except.noConfusion h
  · have hs := parseFixedLengthMeasure_shrink h (List.cons_ne_nil _ _)
    simp only [List.length_cons] at hs ⊢
    omega
  · have hs := parseFixedLengthMeasure_shrink h (List.cons_ne_nil _ _)
    simp only [List.length_cons] at hs ⊢
    omega
  · have hs := parseFixedLengthMeasure_shrink h (List.cons_ne_nil _ _)
    simp only [List.length_cons] at hs ⊢
    omega
  · have hs := parseFixedLengthMeasure_shrink h (List.cons_ne_nil _ _)
    simp only [List.length_cons] at hs ⊢
    omega
  · have hs := parseFixedLengthMeasure_shrink h (List.cons_ne_nil _ _)
    simp only [List.length_cons] at hs ⊢
    omega
  · have hs := parseFixedLengthMeasure_shrink h (List.cons_ne_nil _ _)
    simp only [List.length_cons] at hs ⊢
    omega
  · have hs := parseFixedLengthMeasure_shrink h (List.cons_ne_nil _ _)
    simp only [List.length_cons] at hs ⊢
    omega
  · exact Except.noConfusion h

theorem identifyAI32_shrink (rest : Str) (lot : Option Nat) (fncO : Option Char)
    (r : ParseResult) (h : identifyAI32 rest lot fncO = .ok r) :
    r.codestring.length < 2 + rest.length := by
  unfold identifyAI32 at h
  repeat' split at h
  · exact Except.noConfusion h
  · have hs := parseFixedLengthMeasure_shrink h (List.cons_ne_nil _ _)
    simp only [List.length_cons] at hs ⊢
    omega
  · have hs := parseFixedLengthMeasure_shrink h (List.cons_ne_nil _ _)
    simp only [List.length_cons] at hs ⊢
    omega
  · have hs := parseFixedLengthMeasure_shrink h (List.cons_ne_nil _ _)
    simp only [List.length_cons] at hs ⊢
    omega
  · have hs := parseFixedLengthMeasure_shrink h (List.cons_ne_nil _ _)
    simp only [List.length_cons] at hs ⊢
    omega
  · have hs := parseFixedLengthMeasure_shrink h (List.cons_ne_nil _ _)
    simp only [List.length_cons] at hs ⊢
    omega
  · have hs := parseFixedLengthMeasure_shrink h (List.cons_ne_nil _ _)
    simp only [List.length_cons] at hs ⊢
    omega
  · have hs := parseFixedLengthMeasure_shrink h (List.cons_ne_nil _ _)
    simp only [List.length_cons] at hs ⊢
    omega
  · have hs := parseFixedLengthMeasure_shrink h (List.cons_ne_nil _ _)
    simp only [List.length_cons] at hs ⊢
    omega
  · have hs := parseFixedLengthMeasure_shrink h (List.cons_ne_nil _ _)
    simp only [List.length_cons] at hs ⊢
    omega
  · have hs := parseFixedLengthMeasure_shrink h (List.cons_ne_nil _ _)
    simp only [List.length_cons] at hs ⊢
    omega
  · exact Except.noConfusion h

theorem identifyAI33_shrink (rest : Str) (lot : Option Nat) (fncO : Option Char)
    (r : ParseResult) (h : identifyAI33 rest lot fncO = .ok r) :
    r.codestring.length < 2 + rest.length := by
  unfold identifyAI33 at h
  repeat' split at h
  · exact Except.noConfusion h
  · have hs := parseFixedLengthMeasure_shrink h (List.cons_ne_nil _ _)
    simp only [List.length_cons] at hs ⊢
    omega
  · have hs := parseFixedLengthMeasure_shrink h (List.cons_ne_nil _ _)
    simp only [List.length_cons] at hs ⊢
    omega
  · have hs := parseFixedLengthMeasure_shrink h (List.cons_ne_nil _ _)
    simp only [List.length_cons] at hs ⊢
    omega
  · have hs := parseFixedLengthMeasure_shrink h (List.cons_ne_nil _ _)
    simp only [List.length_cons] at hs ⊢
    omega
  · have hs := parseFixedLengthMeasure_shrink h (List.cons_ne_nil _ _)
    simp only [List.length_cons] at hs ⊢
    omega
  · have hs := parseFixedLengthMeasure_shrink h (List.cons_ne_nil _ _)
    simp only [List.length_cons] at hs ⊢
    omega
  · have hs := parseFixedLengthMeasure_shrink h (List.cons_ne_nil _ _)
    simp only [List.length_cons] at hs ⊢
    omega
  · have hs := parseFixedLengthMeasure_shrink h (List.cons_ne_nil _ _)
    simp only [List.length_cons] at hs ⊢
    omega
  · exact Except.noConfusion h

theorem identifyAI34_shrink (rest : Str) (lot : Option Nat) (fncO : Option Char)
    (r : ParseResult) (h : identifyAI34 rest lot fncO = .ok r) :
    r.codestring.length < 2 + rest.length := by
  unfold identifyAI34 at h
  repeat' split at h
  · exact Except.noConfusion h
  · have hs := parseFixedLengthMeasure_shrink h (List.cons_ne_nil _ _)
    simp only [List.length_cons] at hs ⊢
    omega
  · have hs := parseFixedLengthMeasure_shrink h (List.cons_ne_nil _ _)
    simp only [List.length_cons] at hs ⊢
    omega
  · have hs := parseFixedLengthMeasure_shrink h (List.cons_ne_nil _ _)
    simp only [List.length_cons] at hs ⊢
    omega
  · have hs := parseFixedLengthMeasure_shrink h (List.cons_ne_nil _ _)
    simp only [List.length_cons] at hs ⊢
    omega
  · have hs := parseFixedLengthMeasure_shrink h (List.cons_ne_nil _ _)
    simp only [List.length_cons] at hs ⊢
    omega
  · have hs := parseFixedLengthMeasure_shrink h (List.cons_ne_nil _ _)
    simp only [List.length_cons] at hs ⊢
    omega
  · have hs := parseFixedLengthMeasure_shrink h (List.cons_ne_nil _ _)
    simp only [List.length_cons] at hs ⊢
    omega
  · have hs := parseFixedLengthMeasure_shrink h (List.cons_ne_nil _ _)
    simp only [List.length_cons] at hs ⊢
    omega
  · have hs := parseFixedLengthMeasure_shrink h (List.cons_ne_nil _ _)
    simp only [List.length_cons] at hs ⊢
    omega
  · have hs := parseFixedLengthMeasure_shrink h (List.cons_ne_nil _ _)
    simp only [List.length_cons] at hs ⊢
    omega
  · exact Except.noConfusion h

theorem identifyAI35_shrink (rest : Str) (lot : Option Nat) (fncO : Option Char)
    (r : ParseResult) (h : identifyAI35 rest lot fncO = .ok r) :
    r.codestring.length < 2 + rest.length := by
  unfold identifyAI35 at h
  repeat' split at h
  · exact Except.noConfusion h
  · have hs := parseFixedLengthMeasure_shrink h (List.cons_ne_nil _ _)
    simp only [List.length_cons] at hs ⊢
    omega
  · have hs := parseFixedLengthMeasure_shrink h (List.cons_ne_nil _ _)
    simp only [List.length_cons] at hs ⊢
    omega
  · have hs := parseFixedLengthMeasure_shrink h (List.cons_ne_nil _ _)
    simp only [List.length_cons] at hs ⊢
    omega
  · have hs := parseFixedLengthMeasure_shrink h (List.cons_ne_nil _ _)
    simp only [List.length_cons] at hs ⊢
    omega
  · have hs := parseFixedLengthMeasure_shrink h (List.cons_ne_nil _ _)
    simp only [List.length_cons] at hs ⊢
    omega
  · have hs := parseFixedLengthMeasure_shrink h (List.cons_ne_nil _ _)
    simp only [List.length_cons] at hs ⊢
    omega
  · have hs := parseFixedLengthMeasure_shrink h (List.cons_ne_nil _ _)
    simp only [List.length_cons] at hs ⊢
    omega
  · have hs := parseFixedLengthMeasure_shrink h (List.cons_ne_nil _ _)
    simp only [List.length_cons] at hs ⊢
    omega
  · exact Except.noConfusion h

theorem identifyAI36_shrink (rest : Str) (lot : Option Nat) (fncO : Option Char)
    (r : ParseResult) (h : identifyAI36 rest lot fncO = .ok r) :
    r.codestring.length < 2 + rest.length := by
  unfold identifyAI36 at h
  repeat' split at h
  · exact Except.noConfusion h
  · have hs := parseFixedLengthMeasure_shrink h (List.cons_ne_nil _ _)
    simp only [List.length_cons] at hs ⊢
    omega
  · have hs := parseFixedLengthMeasure_shrink h (List.cons_ne_nil _ _)
    simp only [List.length_cons] at hs ⊢
    omega
  · have hs := parseFixedLengthMeasure_shrink h (List.cons_ne_nil _ _)
    simp only [List.length_cons] at hs ⊢
    omega
  · have hs := parseFixedLengthMeasure_shrink h (List.cons_ne_nil _ _)
    simp only [List.length_cons] at hs ⊢
    omega
  · have hs := parseFixedLengthMeasure_shrink h (List.cons_ne_nil _ _)
    simp only [List.length_cons] at hs ⊢
    omega
  · have hs := parseFixedLengthMeasure_shrink h (List.cons_ne_nil _ _)
    simp only [List.length_cons] at hs ⊢
    omega
  · have hs := parseFixedLengthMeasure_shrink h (List.cons_ne_nil _ _)
    simp only [List.length_cons] at hs ⊢
    omega
  · have hs := parseFixedLengthMeasure_shrink h (List.cons_ne_nil _ _)
    simp only [List.length_cons] at hs ⊢
    omega
  · have hs := parseFixedLengthMeasure_shrink h (List.cons_ne_nil _ _)
    simp only [List.length_cons] at hs ⊢
    omega
  · have hs := parseFixedLengthMeasure_shrink h (List.cons_ne_nil _ _)
    simp only [List.length_cons] at hs ⊢
    omega
  · exact Except.noConfusion h

theorem identifyAI39_shrink (rest : Str) (lot : Option Nat) (fncO : Option Char)
    (r : ParseResult) (h : identifyAI39 rest lot fncO = .ok r) :
    r.codestring.length < 2 + rest.length := by
  unfold identifyAI39 at h
  repeat' split at h
  · exact Except.noConfusion h
  · have hs := parseVariableLengthMeasure_shrink h (List.cons_ne_nil _ _)
    simp only [List.length_cons] at hs ⊢
    omega
  · have hs := parseVariableLengthWithISONumbers_shrink h (List.cons_ne_nil _ _)
    simp only [List.length_cons] at hs ⊢
    omega
  · have hs := parseVariableLengthMeasure_shrink h (List.cons_ne_nil _ _)
    simp only [List.length_cons] at hs ⊢
    omega
  · have hs := parseVariableLengthWithISONumbers_shrink h (List.cons_ne_nil _ _)
    simp only [List.length_cons] at hs ⊢
    omega
  · exact Except.noConfusion h

theorem identifyAI3_shrink (rest : Str) (lot : Option Nat) (fncO : Option Char)
    (r : ParseResult) (h : identifyAI3 rest lot fncO = .ok r) :
    r.codestring.length < 1 + rest.length := by
  unfold identifyAI3 at h
  repeat' split at h
  · exact Except.noConfusion h
  · have hs := parseVariableLength_shrink h (List.cons_ne_nil _ _) rfl (List.cons_ne_nil _ _)
    simp only [List.length_cons] at hs ⊢
    omega
  · have hs := identifyAI31_shrink _ _ _ _ h
    simp only [List.length_cons] at hs ⊢
    omega
  · have hs := identifyAI32_shrink _ _ _ _ h
    simp only [List.length_cons] at hs ⊢
    omega
  · have hs := identifyAI33_shrink _ _ _ _ h
    simp only [List.length_cons] at hs ⊢
    omega
  · have hs := identifyAI34_shrink _ _ _ _ h
    simp only [List.length_cons] at hs ⊢
    omega
  · have hs := identifyAI35_shrink _ _ _ _ h
    simp only [List.length_cons] at hs ⊢
    omega
  · have hs := identifyAI36_shrink _ _ _ _ h
    simp only [List.length_cons] at hs ⊢
    omega
  · have hs := parseVariableLength_shrink h (List.cons_ne_nil _ _) rfl (List.cons_ne_nil _ _)
    simp only [List.length_cons] at hs ⊢
    omega
  · have hs := identifyAI39_shrink _ _ _ _ h
    simp only [List.length_cons] at hs ⊢
    omega
  · exact Except.noConfusion h

theorem identifyAI40_shrink (rest : Str) (lot : Option Nat) (fncO : Option Char)
    (r : ParseResult) (h : identifyAI40 rest lot fncO = .ok r) :
    r.codestring.length < 2 + rest.length := by
  unfold identifyAI40 at h
  repeat' split at h
  · exact Except.noConfusion h
  · have hs := parseVariableLength_shrink h (List.cons_ne_nil _ _) rfl (List.cons_ne_nil _ _)
    simp only [List.length_cons] at hs ⊢
    omega
  · have hs := parseVariableLength_shrink_nocap h (List.cons_ne_nil _ _)
    simp only [List.length_cons] at hs ⊢
    omega
  · have hs := parseVariableLength_shrink h (List.cons_ne_nil _ _) rfl (List.cons_ne_nil _ _)
    simp only [List.length_cons] at hs ⊢
    omega
  · have hs := parseVariableLength_shrink h (List.cons_ne_nil _ _) rfl (List.cons_ne_nil _ _)
    simp only [List.length_cons] at hs ⊢
    omega
  · exact Except.noConfusion h

theorem identifyAI41_shrink (rest : Str) (lot : Option Nat) (fncO : Option Char)
    (r : ParseResult) (h : identifyAI41 rest lot fncO = .ok r) :
    r.codestring.length < 2 + rest.length := by
  unfold identifyAI41 at h
  repeat' split at h
  · exact Except.noConfusion h
  · have hs := parseFixedLength_shrink h (List.cons_ne_nil _ _) (by decide)
    simp only [List.length_cons] at hs ⊢
    omega
  · have hs := parseFixedLength_shrink h (List.cons_ne_nil _ _) (by decide)
    simp only [List.length_cons] at hs ⊢
    omega
  · have hs := parseFixedLength_shrink h (List.cons_ne_nil _ _) (by decide)
    simp only [List.length_cons] at hs ⊢
    omega
  · have hs := parseFixedLength_shrink h (List.cons_ne_nil _ _) (by decide)
    simp only [List.length_cons] at hs ⊢
    omega
  · have hs := parseFixedLength_shrink h (List.cons_ne_nil _ _) (by decide)
    simp only [List.length_cons] at hs ⊢
    omega
  · have hs := parseFixedLength_shrink h (List.cons_ne_nil _ _) (by decide)
    simp only [List.length_cons] at hs ⊢
    omega
  · have hs := parseFixedLength_shrink h (List.cons_ne_nil _ _) (by decide)
    simp only [List.length_cons] at hs ⊢
    omega
  · have hs := parseFixedLength_shrink h (List.cons_ne_nil _ _) (by decide)
    simp only [List.length_cons] at hs ⊢
    omega
  · exact Except.noConfusion h

theorem identifyAI42_shrink (rest : Str) (lot : Option Nat) (fncO : Option Char)
    (r : ParseResult) (h : identifyAI42 rest lot fncO = .ok r) :
    r.codestring.length < 2 + rest.length := by
  unfold identifyAI42 at h
  repeat' split at h
  · exact Except.noConfusion h
  · have hs := parseVariableLength_shrink h (List.cons_ne_nil _ _) rfl (List.cons_ne_nil _ _)
    simp only [List.length_cons] at hs ⊢
    omega
  · have hs := parseVariableLengthWithISOChars_shrink h (List.cons_ne_nil _ _)
    simp only [List.length_cons] at hs ⊢
    omega
  · have hs := parseFixedLength_shrink h (List.cons_ne_nil _ _) (by decide)
    simp only [List.length_cons] at hs ⊢
    omega
  · have hs := parseVariableLength_shrink h (List.cons_ne_nil _ _) rfl (List.cons_ne_nil _ _)
    simp only [List.length_cons] at hs ⊢
    omega
  · have hs := parseFixedLength_shrink h (List.cons_ne_nil _ _) (by decide)
    simp only [List.length_cons] at hs ⊢
    omega
  · have hs := parseFixedLength_shrink h (List.cons_ne_nil _ _) (by decide)
    simp only [List.length_cons] at hs ⊢
    omega
  · have hs := parseFixedLength_shrink h (List.cons_ne_nil _ _) (by decide)
    simp only [List.length_cons] at hs ⊢
    omega
  · have hs := parseVariableLength_shrink h (List.cons_ne_nil _ _) rfl (List.cons_ne_nil _ _)
    simp only [List.length_cons] at hs ⊢
    omega
  · exact Except.noConfusion h

theorem identifyAI4_shrink (rest : Str) (lot : Option Nat) (fncO : Option Char)
    (r : ParseResult) (h : identifyAI4 rest lot fncO = .ok r) :
    r.codestring.length < 1 + rest.length := by
  unfold identifyAI4 at h
  repeat' split at h
  · exact Except.noConfusion h
  · have hs := identifyAI40_shrink _ _ _ _ h
    simp only [List.length_cons] at hs ⊢
    omega
  · have hs := identifyAI41_shrink _ _ _ _ h
    simp only [List.length_cons] at hs ⊢
    omega
  · have hs := identifyAI42_shrink _ _ _ _ h
    simp only [List.length_cons] at hs ⊢
    omega
  · exact Except.noConfusion h

theorem identifyAI700_shrink (rest : Str) (lot : Option Nat) (fncO : Option Char)
    (r : ParseResult) (h : identifyAI700 rest lot fncO = .ok r) :
    r.codestring.length < 3 + rest.length := by
  unfold identifyAI700 at h
  repeat' split at h
  · exact Except.noConfusion h
  · have hs := parseVariableLength_shrink h (List.cons_ne_nil _ _) rfl (List.cons_ne_nil _ _)
    simp only [List.length_cons] at hs ⊢
    omega
  · have hs := parseVariableLength_shrink_nocap h (List.cons_ne_nil _ _)
    simp only [List.length_cons] at hs ⊢
    omega
  · have hs := parseVariableLength_shrink h (List.cons_ne_nil _ _) rfl (List.cons_ne_nil _ _)
    simp only [List.length_cons] at hs ⊢
    omega
  · have hs := parseVariableLength_shrink h (List.cons_ne_nil _ _) rfl (List.cons_ne_nil _ _)
    simp only [List.length_cons] at hs ⊢
    omega
  · exact Except.noConfusion h

theorem identifyAI70_shrink (rest : Str) (lot : Option Nat) (fncO : Option Char)
    (r : ParseResult) (h : identifyAI70 rest lot fncO = .ok r) :
    r.codestring.length < 2 + rest.length := by
  unfold identifyAI70 at h
  repeat' split at h
  · exact Except.noConfusion h
  · have hs := identifyAI700_shrink _ _ _ _ h
    simp only [List.length_cons] at hs ⊢
    omega
  · have hs := parseVariableLengthWithISOChars_shrink h (List.cons_ne_nil _ _)
    simp only [List.length_cons] at hs ⊢
    omega
  · exact Except.noConfusion h

theorem identifyAI71_shrink (rest : Str) (lot : Option Nat) (fncO : Option Char)
    (r : ParseResult) (h : identifyAI71 rest lot fncO = .ok r) :
    r.codestring.length < 2 + rest.length := by
  unfold identifyAI71 at h
  repeat' split at h
  · exact Except.noConfusion h
  · have hs := parseVariableLength_shrink_nocap h (List.cons_ne_nil _ _)
    simp only [List.length_cons] at hs ⊢
    omega
  · have hs := parseVariableLength_shrink_nocap h (List.cons_ne_nil _ _)
    simp only [List.length_cons] at hs ⊢
    omega
  · have hs := parseVariableLength_shrink_nocap h (List.cons_ne_nil _ _)
    simp only [List.length_cons] at hs ⊢
    omega
  · have hs := parseVariableLength_shrink_nocap h (List.cons_ne_nil _ _)
    simp only [List.length_cons] at hs ⊢
    omega
  · exact Except.noConfusion h

theorem identifyAI7_shrink (rest : Str) (lot : Option Nat) (fncO : Option Char)
    (r : ParseResult) (h : identifyAI7 rest lot fncO = .ok r) :
    r.codestring.length < 1 + rest.length := by
  unfold identifyAI7 at h
  repeat' split at h
  · exact Except.noConfusion h
  · have hs := identifyAI70_shrink _ _ _ _ h
    simp only [List.length_cons] at hs ⊢
    omega
  · have hs := identifyAI71_shrink _ _ _ _ h
    simp only [List.length_cons] at hs ⊢
    omega
  · exact Except.noConfusion h

theorem identifyAI800_shrink (rest : Str) (lot : Option Nat) (fncO : Option Char)
    (r : ParseResult) (h : identifyAI800 rest lot fncO = .ok r) :
    r.codestring.length < 3 + rest.length := by
  unfold identifyAI800 at h
  repeat' split at h
  · exact Except.noConfusion h
  · have hs := parseVariableLength_shrink h (List.cons_ne_nil _ _) rfl (List.cons_ne_nil _ _)
    simp only [List.length_cons] at hs ⊢
    omega
  · have hs := parseVariableLength_shrink_nocap h (List.cons_ne_nil _ _)
    simp only [List.length_cons] at hs ⊢
    omega
  · have hs := parseVariableLength_shrink_nocap h (List.cons_ne_nil _ _)
    simp only [List.length_cons] at hs ⊢
    omega
  · have hs := parseVariableLength_shrink_nocap h (List.cons_ne_nil _ _)
    simp only [List.length_cons] at hs ⊢
    omega
  · have hs := parseVariableLength_shrink h (List.cons_ne_nil _ _) rfl (List.cons_ne_nil _ _)
    simp only [List.length_cons] at hs ⊢
    omega
  · have hs := parseVariableLength_shrink h (List.cons_ne_nil _ _) rfl (List.cons_ne_nil _ _)
    simp only [List.length_cons] at hs ⊢
    omega
  · have hs := parseVariableLength_shrink_nocap h (List.cons_ne_nil _ _)
    simp only [List.length_cons] at hs ⊢
    omega
  · have hs := parseVariableLength_shrink h (List.cons_ne_nil _ _) rfl (List.cons_ne_nil _ _)
    simp only [List.length_cons] at hs ⊢
    omega
  · exact Except.noConfusion h

theorem identifyAI801_shrink (rest : Str) (lot : Option Nat) (fncO : Option Char)
    (r : ParseResult) (h : identifyAI801 rest lot fncO = .ok r) :
    r.codestring.length < 3 + rest.length := by
  unfold identifyAI801 at h
  repeat' split at h
  · exact Except.noConfusion h
  · have hs := parseVariableLength_shrink_nocap h (List.cons_ne_nil _ _)
    simp only [List.length_cons] at hs ⊢
    omega
  · have hs := parseVariableLength_shrink_nocap h (List.cons_ne_nil _ _)
    simp only [List.length_cons] at hs ⊢
    omega
  · have hs := parseVariableLength_shrink h (List.cons_ne_nil _ _) rfl (List.cons_ne_nil _ _)
    simp only [List.length_cons] at hs ⊢
    omega
  · have hs := parseVariableLength_shrink h (List.cons_ne_nil _ _) rfl (List.cons_ne_nil _ _)
    simp only [List.length_cons] at hs ⊢
    omega
  · have hs := parseVariableLength_shrink_nocap h (List.cons_ne_nil _ _)
    simp only [List.length_cons] at hs ⊢
    omega
  · exact Except.noConfusion h

theorem identifyAI802_shrink (rest : Str) (lot : Option Nat) (fncO : Option Char)
    (r : ParseResult) (h : identifyAI802 rest lot fncO = .ok r) :
    r.codestring.length < 3 + rest.length := by
  unfold identifyAI802 at h
  repeat' split at h
  · exact Except.noConfusion h
  · have hs := parseVariableLength_shrink_nocap h (List.cons_ne_nil _ _)
    simp only [List.length_cons] at hs ⊢
    omega
  · exact Except.noConfusion h

theorem identifyAI80_shrink (rest : Str) (lot : Option Nat) (fncO : Option Char)
    (r : ParseResult) (h : identifyAI80 rest lot fncO = .ok r) :
    r.codestring.length < 2 + rest.length := by
  unfold identifyAI80 at h
  repeat' split at h
  · exact Except.noConfusion h
  · have hs := identifyAI800_shrink _ _ _ _ h
    simp only [List.length_cons] at hs ⊢
    omega
  · have hs := identifyAI801_shrink _ _ _ _ h
    simp only [List.length_cons] at hs ⊢
    omega
  · have hs := identifyAI802_shrink _ _ _ _ h
    simp only [List.length_cons] at hs ⊢
    omega
  · exact Except.noConfusion h

theorem identifyAI810_shrink (rest : Str) (lot : Option Nat) (fncO : Option Char)
    (r : ParseResult) (h : identifyAI810 rest lot fncO = .ok r) :
    r.codestring.length < 3 + rest.length := by
  unfold identifyAI810 at h
  repeat' split at h
  · exact Except.noConfusion h
  · have hs := parseVariableLength_shrink h (List.cons_ne_nil _ _) rfl (List.cons_ne_nil _ _)
    simp only [List.length_cons] at hs ⊢
    omega
  · have hs := parseVariableLength_shrink h (List.cons_ne_nil _ _) rfl (List.cons_ne_nil _ _)
    simp only [List.length_cons] at hs ⊢
    omega
  · have hs := parseVariableLength_shrink h (List.cons_ne_nil _ _) rfl (List.cons_ne_nil _ _)
    simp only [List.length_cons] at hs ⊢
    omega
  · exact Except.noConfusion h

theorem identifyAI811_shrink (rest : Str) (lot : Option Nat) (fncO : Option Char)
    (r : ParseResult) (h : identifyAI811 rest lot fncO = .ok r) :
    r.codestring.length < 3 + rest.length := by
  unfold identifyAI811 at h
  repeat' split at h
  · exact Except.noConfusion h
  · have hs := parseVariableLength_shrink_nocap h (List.cons_ne_nil _ _)
    simp only [List.length_cons] at hs ⊢
    omega
  · exact Except.noConfusion h

theorem identifyAI81_shrink (rest : Str) (lot : Option Nat) (fncO : Option Char)
    (r : ParseResult) (h : identifyAI81 rest lot fncO = .ok r) :
    r.codestring.length < 2 + rest.length := by
  unfold identifyAI81 at h
  repeat' split at h
  · exact Except.noConfusion h
  · have hs := identifyAI810_shrink _ _ _ _ h
    simp only [List.length_cons] at hs ⊢
    omega
  · have hs := identifyAI811_shrink _ _ _ _ h
    simp only [List.length_cons] at hs ⊢
    omega
  · exact Except.noConfusion h

theorem identifyAI82_shrink (rest : Str) (lot : Option Nat) (fncO : Option Char)
    (r : ParseResult) (h : identifyAI82 rest lot fncO = .ok r) :
    r.codestring.length < 2 + rest.length := by
  unfold identifyAI82 at h
  repeat' split at h
  · exact Except.noConfusion h
  · have hs := parseVariableLength_shrink_nocap h (List.cons_ne_nil _ _)
    simp only [List.length_cons] at hs ⊢
    omega
  · exact Except.noConfusion h

theorem identifyAI8_shrink (rest : Str) (lot : Option Nat) (fncO : Option Char)
    (r : ParseResult) (h : identifyAI8 rest lot fncO = .ok r) :
    r.codestring.length < 1 + rest.length := by
  unfold identifyAI8 at h
  repeat' split at h
  · exact Except.noConfusion h
  · have hs := identifyAI80_shrink _ _ _ _ h
    simp only [List.length_cons] at hs ⊢
    omega
  · have hs := identifyAI81_shrink _ _ _ _ h
    simp only [List.length_cons] at hs ⊢
    omega
  · have hs := identifyAI82_shrink _ _ _ _ h
    simp only [List.length_cons] at hs ⊢
    omega
  · exact Except.noConfusion h

theorem identifyAI9_shrink (rest : Str) (lot : Option Nat) (fncO : Option Char)
    (r : ParseResult) (h : identifyAI9 rest lot fncO = .ok r) :
    r.codestring.length < 1 + rest.length := by
  unfold identifyAI9 at h
  repeat' split at h
  · exact Except.noConfusion h
  · have hs := parseVariableLength_shrink_nocap h (List.cons_ne_nil _ _)
    simp only [List.length_cons] at hs ⊢
    omega
  · have hs := parseVariableLength_shrink_nocap h (List.cons_ne_nil _ _)
    simp only [List.length_cons] at hs ⊢
    omega
  · have hs := parseVariableLength_shrink_nocap h (List.cons_ne_nil _ _)
    simp only [List.length_cons] at hs ⊢
    omega
  · have hs := parseVariableLength_shrink_nocap h (List.cons_ne_nil _ _)
    simp only [List.length_cons] at hs ⊢
    omega
  · have hs := parseVariableLength_shrink_nocap h (List.cons_ne_nil _ _)
    simp only [List.length_cons] at hs ⊢
    omega
  · have hs := parseVariableLength_shrink_nocap h (List.cons_ne_nil _ _)
    simp only [List.length_cons] at hs ⊢
    omega
  · have hs := parseVariableLength_shrink_nocap h (List.cons_ne_nil _ _)
    simp only [List.length_cons] at hs ⊢
    omega
  · have hs := parseVariableLength_shrink_nocap h (List.cons_ne_nil _ _)
    simp only [List.length_cons] at hs ⊢
    omega
  · have hs := parseVariableLength_shrink_nocap h (List.cons_ne_nil _ _)
    simp only [List.length_cons] at hs ⊢
    omega
  · have hs := parseVariableLength_shrink_nocap h (List.cons_ne_nil _ _)
    simp only [List.length_cons] at hs ⊢
    omega
  · exact Except.noConfusion h

/-- Every successful `identifyAI` call returns a strictly shorter remainder:
each dispatch arm consumes the matched AI digits, and every field decoder
drops at least the AI prefix from the codestring. -/
theorem identifyAI_shrink (cs : Str) (lot : Option Nat) (fncO : Option Char)
    (r : ParseResult) (h : identifyAI cs lot fncO = .ok r) :
    r.codestring.length < cs.length := by
  unfold identifyAI at h
  repeat' split at h
  · exact Except.noConfusion h
  · have hs := identifyAI0_shrink _ _ _ _ h
    simp only [List.length_cons] at hs ⊢
    omega
  · have hs := identifyAI1_shrink _ _ _ _ h
    simp only [List.length_cons] at hs ⊢
    omega
  · have hs := identifyAI2_shrink _ _ _ _ h
    simp only [List.length_cons] at hs ⊢
    omega
  · have hs := identifyAI3_shrink _ _ _ _ h
    simp only [List.length_cons] at hs ⊢
    omega
  · have hs := identifyAI4_shrink _ _ _ _ h
    simp only [List.length_cons] at hs ⊢
    omega
  · have hs := identifyAI7_shrink _ _ _ _ h
    simp only [List.length_cons] at hs ⊢
    omega
  · have hs := identifyAI8_shrink _ _ _ _ h
    simp only [List.length_cons] at hs ⊢
    omega
  · have hs := identifyAI9_shrink _ _ _ _ h
    simp only [List.length_cons] at hs ⊢
    omega
  · exact Except.noConfusion h

theorem parseLoop_total (fuel : Nat) : ∀ (rest : Str) (fnc : Char) (lot : Option Nat)
    (acc : List ParsedElement) (denorm : Str), rest.length ≤ fuel →
    (parseLoop fuel rest fnc lot acc denorm).isSome = true := by
  induction fuel with
  | zero =>
    intro rest fnc lot acc denorm hle
    have h0 : rest = [] := List.eq_nil_of_length_eq_zero (Nat.le_zero.mp hle)
    subst h0
    rw [parseLoop_nil]
    rfl
  | succ n ih =>
    intro rest fnc lot acc denorm hle
    by_cases hr : rest = []
    · subst hr
      rw [parseLoop_nil]
      rfl
    · cases hid : identifyAI rest lot none with
      | error e =>
        rw [parseLoop_step_err n rest fnc lot acc denorm hr e hid]
        rfl
      | ok cur =>
        rw [parseLoop_step n rest fnc lot acc denorm hr cur hid]
        apply ih
        have h1 := identifyAI_shrink rest lot none cur hid
        have h2 := cleanCodestring_length_le cur.codestring fnc
        omega

/-- C9: decoding terminates within input-length steps.  Every successful
`identifyAI` dispatch strictly shortens the remaining codestring; hence the
decode loop, run with fuel equal to the remaining length (exactly what
`parseBarcode` passes), always completes; and `parseBarcode` can therefore
never fall into its fuel-exhausted `UnknownErr` default branch. -/
theorem C9_decode_terminates_input_length_bound :
    (∀ (cs : Str) (lot : Option Nat) (fncO : Option Char) (r : ParseResult),
      identifyAI cs lot fncO = .ok r → r.codestring.length < cs.length) ∧
    (∀ (fuel : Nat) (rest : Str) (fnc : Char) (lot : Option Nat)
      (acc : List ParsedElement) (denorm : Str), rest.length ≤ fuel →
      (parseLoop fuel rest fnc lot acc denorm).isSome = true) ∧
    (∀ (barcode : Str) (fnc : Char) (lot : Option Nat),
      (parseLoop (stripSymbology barcode).2.length (stripSymbology barcode).2
        fnc lot [] []).isSome = true) := by
  refine ⟨identifyAI_shrink, parseLoop_total, ?_⟩
  intro barcode fnc lot
  exact parseLoop_total _ _ fnc lot [] [] (le_refl _)

theorem C9_witness :
    identifyAI (str "10AB") none none =
      .ok ⟨⟨str "10", str "BATCH/LOT", .s (str "AB"), str "AB", []⟩, []⟩ ∧
    (⟨⟨str "10", str "BATCH/LOT", .s (str "AB"), str "AB", []⟩, []⟩ :
        ParseResult).codestring.length < (str "10AB").length ∧
    (parseLoop 4 (str "10AB") GROUP_SEPARATOR none [] []).isSome = true ∧
    (parseLoop (stripSymbology (str "4300X")).2.length (stripSymbology (str "4300X")).2
      GROUP_SEPARATOR none [] []).isSome = true := by
  refine ⟨rfl, ?_, ?_, ?_⟩
  · exact C9_decode_terminates_input_length_bound.1 (str "10AB") none none _ rfl
  · exact C9_decode_terminates_input_length_bound.2.1 4 (str "10AB") GROUP_SEPARATOR none [] []
      (by decide)
  · exact C9_decode_terminates_input_length_bound.2.2 (str "4300X") GROUP_SEPARATOR none

theorem map_paren_id (s : Str) (fnc : Char) (h : '(' ∉ s) :
    s.map (fun c => if c = '(' then fnc else c) = s := by
  induction s with
  | nil => rfl
  | cons a t ih =>
    simp only [List.mem_cons, not_or] at h
    have ha : a ≠ '(' := fun hc => h.1 hc.symm
    simp only [List.map_cons, if_neg ha]
    rw [ih h.2]

theorem filter_paren_id (s : Str) (h : ')' ∉ s) :
    s.filter (fun c => c ≠ ')') = s := by
  induction s with
  | nil => rfl
  | cons a t ih =>
    simp only [List.mem_cons, not_or] at h
    have ha : a ≠ ')' := fun hc => h.1 hc.symm
    simp only [List.filter_cons, if_pos (decide_eq_true ha)]
    rw [ih h.2]

theorem gs1Normalize_id (s : Str) (fnc : Char) (hl : '(' ∉ s) (hr : ')' ∉ s)
    (hh : ∀ c ∈ s.take 1, c ≠ fnc) : gs1Normalize s fnc = s := by
  unfold gs1Normalize
  rw [map_paren_id s fnc hl, filter_paren_id s hr]
  cases s with
  | nil => rfl
  | cons a t =>
    have ha := hh a (by simp)
    show (if a = fnc then t else a :: t) = a :: t
    rw [if_neg ha]

theorem gs1Normalize_paren_elem (p : Str) (fnc : Char) (hlp : '(' ∉ p) (hrp : ')' ∉ p)
    (hf : fnc ≠ ')') :
    gs1Normalize ('(' :: '1' :: '0' :: ')' :: p) fnc = '1' :: '0' :: p := by
  unfold gs1Normalize
  rw [show ('(' :: '1' :: '0' :: ')' :: p).map (fun c => if c = '(' then fnc else c) =
        fnc :: '1' :: '0' :: ')' :: p.map (fun c => if c = '(' then fnc else c) from rfl]
  rw [map_paren_id p fnc hlp]
  rw [List.filter_cons, if_pos (decide_eq_true hf)]
  rw [show ('1' :: '0' :: ')' :: p).filter (fun c => c ≠ ')') =
        '1' :: '0' :: p.filter (fun c => c ≠ ')') from rfl]
  rw [filter_paren_id p hrp]
  show (if fnc = fnc then '1' :: '0' :: p else fnc :: '1' :: '0' :: p) = '1' :: '0' :: p
  rw [if_pos rfl]

/-- C3 (amended): the round-trip property holds for elements decoded by
`parseVariableLength` — here AI 10 with any nonempty payload free of the
terminator and of parentheses, within the 20-character cap: parsing the raw
element and re-parsing the parenthesized `denormalized` string produce the
same answer.  The ISO-number decoders (AIs 391x/393x) are excluded: their
`dataString` keeps only the numeric part, so re-parsing the denormalized
string re-splits the payload (see the counterexample). -/
theorem C3_roundtrip_variable_length_amended :
    ∀ (p : Str), p ≠ [] → GROUP_SEPARATOR ∉ p → '(' ∉ p → ')' ∉ p → p.length ≤ 20 →
      gs1Decode ('1' :: '0' :: p) GROUP_SEPARATOR none =
        .ok ⟨[], '(' :: '1' :: '0' :: ')' :: p,
             [⟨str "10", str "BATCH/LOT", .s p, p, []⟩]⟩ ∧
      gs1Decode ('(' :: '1' :: '0' :: ')' :: p) GROUP_SEPARATOR none =
        .ok ⟨[], '(' :: '1' :: '0' :: ')' :: p,
             [⟨str "10", str "BATCH/LOT", .s p, p, []⟩]⟩ := by
  intro p hne hgs hlp hrp hcap
  have hid : identifyAI ('1' :: '0' :: p) none none =
      .ok ⟨⟨str "10", str "BATCH/LOT", .s p, p, []⟩, []⟩ := by
    show parseVariableLength (str "10") (str "BATCH/LOT") ('1' :: '0' :: p)
        (Option.getD none GROUP_SEPARATOR) (some (Option.getD none 20)) = _
    rw [show (Option.getD none GROUP_SEPARATOR) = GROUP_SEPARATOR from rfl]
    rw [show (Option.getD (none : Option Nat) 20) = 20 from rfl]
    have h := parseVariableLength_nofnc_cap (str "10") (str "BATCH/LOT") GROUP_SEPARATOR p
      20 false (by decide) hgs (by omega) hcap hne
      (by intro hcon; exact absurd hcon (by decide))
    simpa using h
  have hloopval : parseLoop ('1' :: '0' :: p).length ('1' :: '0' :: p)
      GROUP_SEPARATOR none [] [] =
      some (.ok ([⟨str "10", str "BATCH/LOT", .s p, p, []⟩],
                 '(' :: '1' :: '0' :: ')' :: p)) := by
    rw [show ('1' :: '0' :: p).length = (p.length + 1) + 1 from by simp]
    rw [parseLoop_step _ _ _ _ _ _ (by simp) _ hid]
    rw [cleanCodestring_nil, parseLoop_nil]
    simp [str]
  have hparse : parseBarcode ('1' :: '0' :: p) GROUP_SEPARATOR none =
      .ok ⟨[], '(' :: '1' :: '0' :: ')' :: p,
           [⟨str "10", str "BATCH/LOT", .s p, p, []⟩]⟩ :=
    parseBarcode_of_loop _ _ _ (by simp)
      (by intro c hc; simp at hc; rw [hc]; decide) _ _ hloopval
  constructor
  · show parseBarcode (gs1Normalize ('1' :: '0' :: p) GROUP_SEPARATOR) GROUP_SEPARATOR none = _
    rw [gs1Normalize_id ('1' :: '0' :: p) GROUP_SEPARATOR
      (by simp only [List.mem_cons, not_or]; exact ⟨by decide, by decide, hlp⟩)
      (by simp only [List.mem_cons, not_or]; exact ⟨by decide, by decide, hrp⟩)
      (by intro c hc; simp at hc; rw [hc]; decide)]
    exact hparse
  · show parseBarcode (gs1Normalize ('(' :: '1' :: '0' :: ')' :: p) GROUP_SEPARATOR)
        GROUP_SEPARATOR none = _
    rw [gs1Normalize_paren_elem p GROUP_SEPARATOR hlp hrp (by decide)]
    exact hparse

theorem C3_roundtrip_witness :
    gs1Decode (str "10LOT42") GROUP_SEPARATOR none =
      .ok ⟨[], str "(10)LOT42",
           [⟨str "10", str "BATCH/LOT", .s (str "LOT42"), str "LOT42", []⟩]⟩ ∧
    gs1Decode (str "(10)LOT42") GROUP_SEPARATOR none =
      .ok ⟨[], str "(10)LOT42",
           [⟨str "10", str "BATCH/LOT", .s (str "LOT42"), str "LOT42", []⟩]⟩ :=
  C3_roundtrip_variable_length_amended (str "LOT42") (by decide) (by decide) (by decide)
    (by decide) (by decide)

theorem C8_skip_witness :
    parseBarcode ('1' :: '0' :: str "ABC" ++
        GROUP_SEPARATOR :: GROUP_SEPARATOR :: '1' :: '0' :: str "DEF") GROUP_SEPARATOR none =
      .ok ⟨[], '(' :: '1' :: '0' :: ')' :: str "ABC" ++ '(' :: '1' :: '0' :: ')' :: str "DEF",
           [⟨str "10", str "BATCH/LOT", .s (str "ABC"), str "ABC", []⟩,
            ⟨str "10", str "BATCH/LOT", .s (str "DEF"), str "DEF", []⟩]⟩ :=
  C8_double_terminator_skipped (str "ABC") (str "DEF") (by decide) (by decide) (by decide)
    (by decide) (by decide)
